import Mathlib

/-!
Verification of the calculus verifier core
(`py/verifier/src/verifier/calculus.py`).

The SymPy expression trees are shallowly embedded as `SExpr`; the external
CAS primitives (parsing, differentiation, integration, limits,
simplification, numeric evaluation) are modelled as an explicit oracle
structure `CAS` whose fallible operations return `Except String`, mirroring
Python exceptions carrying `str(e)`.  Each engine of `calculus.py` is then
translated statement by statement, with Python `try/except` blocks becoming
`Except` plumbing: an exception caught locally becomes a local `match`, an
exception reaching an engine's outer `except Exception` becomes the
`.error` branch of the engine body.
-/

/-- SymPy expression trees (`sp.Basic`), as far as the verifier inspects
them: integers, symbols, n-ary sums and products, powers, applied functions
(`func.__name__` is the string), and the atomic constants `pi`, `E`, `I`,
`oo`, `-oo` (NegativeInfinity), `zoo` (ComplexInfinity) and `nan`. -/
inductive SExpr where
  | int : Int → SExpr
  | sym : String → SExpr
  | add : List SExpr → SExpr
  | mul : List SExpr → SExpr
  | pow : SExpr → SExpr → SExpr
  | app : String → List SExpr → SExpr
  | piC : SExpr
  | eC : SExpr
  | iC : SExpr
  | ooC : SExpr
  | ninfC : SExpr
  | zooC : SExpr
  | nanC : SExpr
  deriving Repr

mutual

/-- Structural equality of expression trees, SymPy's `==`/`!=` on
`Basic`. -/
def SExpr.beq : SExpr → SExpr → Bool
  | .int a, .int b => a == b
  | .sym a, .sym b => a == b
  | .add a, .add b => SExpr.beqList a b
  | .mul a, .mul b => SExpr.beqList a b
  | .pow a b, .pow c d => SExpr.beq a c && SExpr.beq b d
  | .app f a, .app g b => f == g && SExpr.beqList a b
  | .piC, .piC => true
  | .eC, .eC => true
  | .iC, .iC => true
  | .ooC, .ooC => true
  | .ninfC, .ninfC => true
  | .zooC, .zooC => true
  | .nanC, .nanC => true
  | _, _ => false

/-- Structural equality of argument lists. -/
def SExpr.beqList : List SExpr → List SExpr → Bool
  | [], [] => true
  | a :: as, b :: bs => SExpr.beq a b && SExpr.beqList as bs
  | _, _ => false

end

instance : BEq SExpr := ⟨SExpr.beq⟩

mutual

/-- Names of the free symbols of an expression, with multiplicity
(`expr.atoms(sp.Symbol)` up to deduplication; the verifier only ever tests
membership and emptiness, which ignore multiplicity). -/
def SExpr.freeSymbols : SExpr → List String
  | .int _ => []
  | .sym s => [s]
  | .add args => SExpr.freeSymbolsList args
  | .mul args => SExpr.freeSymbolsList args
  | .pow b e => b.freeSymbols ++ e.freeSymbols
  | .app _ args => SExpr.freeSymbolsList args
  | .piC => []
  | .eC => []
  | .iC => []
  | .ooC => []
  | .ninfC => []
  | .zooC => []
  | .nanC => []

/-- Free symbols of a list of expressions. -/
def SExpr.freeSymbolsList : List SExpr → List String
  | [] => []
  | a :: as => a.freeSymbols ++ SExpr.freeSymbolsList as

end

mutual

/-- Names of the applied functions occurring in an expression
(`func.func.__name__` for `func` in `expr.atoms(sp.Function)`). -/
def SExpr.funcNames : SExpr → List String
  | .int _ => []
  | .sym _ => []
  | .add args => SExpr.funcNamesList args
  | .mul args => SExpr.funcNamesList args
  | .pow b e => b.funcNames ++ e.funcNames
  | .app f args => f :: SExpr.funcNamesList args
  | .piC => []
  | .eC => []
  | .iC => []
  | .ooC => []
  | .ninfC => []
  | .zooC => []
  | .nanC => []

/-- Applied function names of a list of expressions. -/
def SExpr.funcNamesList : List SExpr → List String
  | [] => []
  | a :: as => a.funcNames ++ SExpr.funcNamesList as

end

/-- `expr.is_Add`. -/
def SExpr.isAdd : SExpr → Bool
  | .add _ => true
  | _ => false

/-- `sp.Add(*terms)`: the empty sum is `S.Zero`, a one-element sum is the
term itself, otherwise an `Add` node with the given arguments. -/
def mkAdd : List SExpr → SExpr
  | [] => .int 0
  | [t] => t
  | ts => .add ts

/-- The parsing allowlist `SAFE_FUNCTIONS` of `calculus.py`, verbatim. -/
def SAFE_FUNCTIONS : List String :=
  ["Add", "Mul", "Pow", "Rational", "Integer", "Float",
   "sin", "cos", "tan", "cot", "sec", "csc",
   "asin", "acos", "atan", "acot", "asec", "acsc",
   "sinh", "cosh", "tanh", "coth", "sech", "csch",
   "asinh", "acosh", "atanh", "acoth", "asech", "acsch",
   "exp", "log", "ln", "sqrt", "abs", "sign",
   "factorial", "gamma", "beta",
   "diff", "integrate", "limit", "Derivative", "Integral", "Limit",
   "erf", "erfc", "erfi", "erfinv", "erfcinv",
   "besselj", "bessely", "besseli", "besselk",
   "airyai", "airyaiprime", "airybi", "airybiprime",
   "pi", "E", "I", "oo", "zoo", "nan",
   "And", "Or", "Not", "Xor", "Nand", "Nor",
   "Equivalent", "Implies", "ITE",
   "Eq", "Ne", "Lt", "Le", "Gt", "Ge",
   "Symbol", "Wild", "WildFunction",
   "Function", "Lambda", "Piecewise",
   "Min", "Max", "re", "im", "conjugate",
   "floor", "ceiling", "frac"]

/-- Whether a character may continue an identifier
(`[a-zA-Z0-9_]`; `Char.isAlpha` and `Char.isDigit` are the ASCII tests). -/
def isIdentTail (c : Char) : Bool := c.isAlpha || c.isDigit || c = '_'

/-- `SAFE_SYMBOL_PATTERN`: full match of a symbol name against
`^[a-zA-Z_][a-zA-Z0-9_]*$`. -/
def isSafeSymbolName (s : String) : Bool :=
  match s.data with
  | [] => false
  | c :: cs => (c.isAlpha || c = '_') && cs.all isIdentTail

/-- Python substring containment `pat in s`. -/
def strContains (s pat : String) : Bool := decide (pat.data <:+: s.data)

/-- A Python float as produced by `float(...)` on a SymPy object: a finite
value (modelled exactly as a rational), `inf`, `-inf`, or `nan`. -/
inductive FloatVal where
  | fin : ℚ → FloatVal
  | inf : FloatVal
  | ninf : FloatVal
  | nan : FloatVal
  deriving DecidableEq, Repr

/-- `not (np.isnan(result) or np.isinf(result))`. -/
def FloatVal.isFinite : FloatVal → Bool
  | .fin _ => true
  | _ => false

/-- Python float subtraction extended to `inf`, `-inf`, `nan`. -/
def FloatVal.sub : FloatVal → FloatVal → FloatVal
  | .fin a, .fin b => .fin (a - b)
  | .nan, _ => .nan
  | _, .nan => .nan
  | .inf, .inf => .nan
  | .inf, _ => .inf
  | .ninf, .ninf => .nan
  | .ninf, _ => .ninf
  | .fin _, .inf => .ninf
  | .fin _, .ninf => .inf

/-- Python `abs` on a float. -/
def FloatVal.fabs : FloatVal → FloatVal
  | .fin a => .fin |a|
  | .nan => .nan
  | _ => .inf

/-- Python `v > tol` for a float `v` and a finite tolerance
(every comparison with `nan` is false). -/
def FloatVal.gtTol : FloatVal → ℚ → Bool
  | .fin a, t => decide (t < a)
  | .inf, _ => true
  | _, _ => false

/-- Python `v <= tol` for a float `v` and a finite tolerance
(every comparison with `nan` is false). -/
def FloatVal.leTol : FloatVal → ℚ → Bool
  | .fin a, t => decide (a ≤ t)
  | .ninf, _ => true
  | _, _ => false

/-- `abs(a - b) > tolerance` on Python floats. -/
def floatAbsDiffGt (a b : FloatVal) (tol : ℚ) : Bool :=
  ((a.sub b).fabs).gtTol tol

/-- `abs(a - b) <= tolerance` on Python floats. -/
def floatAbsDiffLe (a b : FloatVal) (tol : ℚ) : Bool :=
  ((a.sub b).fabs).leTol tol

/-- Outcome of one `float(...)` call on a SymPy object.  `val` is a normal
return; `softErr` is a raised `ValueError` or `TypeError` (the exception
classes the engines catch locally at evaluation sites; `numeric_probe`
additionally lists `ZeroDivisionError` there); `hardErr` is any other
exception, which propagates to the engine's outer `except Exception`
handler carrying `str(e)`. -/
inductive EvRes where
  | val : FloatVal → EvRes
  | softErr : EvRes
  | hardErr : String → EvRes
  deriving DecidableEq, Repr

/-- The three shapes of `limit` calls made by `limit_equal`. -/
inductive LimDir where
  | minus : LimDir
  | plus : LimDir
  | dflt : LimDir
  deriving DecidableEq, Repr

/-- The external CAS and units library, as an oracle.  Each field models
one library call site in `calculus.py`; fallible calls return
`Except String` where `.error m` is a raised exception with `str(e) = m`. -/
structure CAS where
  /-- `parse_expr(s, transformations=SAFE_TRANSFORMATIONS)`. -/
  parse : String → Except String SExpr
  /-- `sympy.symbols(var)`, returning the name of the created symbol. -/
  mkSym : String → Except String String
  /-- `sp.diff(e, var)`. -/
  diffE : SExpr → String → Except String SExpr
  /-- `sp.integrate(e, var)`. -/
  integrateE : SExpr → String → Except String SExpr
  /-- `simplify(e)`. -/
  simplifyE : SExpr → Except String SExpr
  /-- `(a - b).simplify() == 0`: the symbolic-equality test. -/
  isZeroSimplify : SExpr → SExpr → Except String Bool
  /-- `limit(e, var, to, dir)`; the three call shapes are `dir='-'`,
  `dir='+'` and the default-direction call, and the code additionally
  guards against a `None` return. -/
  limitE : SExpr → String → SExpr → LimDir → Except String (Option SExpr)
  /-- `_generate_test_points(expr, var, n)`: calls `continuous_domain`
  (which may raise) and then draws `n` uniform points. -/
  genPoints : SExpr → String → Nat → Except String (List ℚ)
  /-- `_generate_test_points_multi(symbols, n)`: draws `n` assignments,
  never raises. -/
  genPointsMulti : List String → Nat → List (List (String × ℚ))
  /-- `float(e.subs(assignment))` at one test point. -/
  evalAt : SExpr → List (String × ℚ) → EvRes
  /-- `float(e)` on a symbol-free expression. -/
  toFloat : SExpr → EvRes
  /-- `list((a | b).atoms(sp.Symbol))`: the symbol names of the `Or` of the
  two operands (the `|` construction itself may raise). -/
  orAtoms : SExpr → SExpr → Except String (List String)
  /-- `UREG.parse_expression(expected_unit)` (result unused by the code). -/
  pintParse : String → Except String Unit
  /-- `str(e)`, SymPy's printer. -/
  sstr : SExpr → String

/-- The first function name of the parsed tree outside `SAFE_FUNCTIONS`,
if any (`for func in parsed.atoms(sp.Function): ...`; the set iteration
order is irrelevant because only existence matters downstream). -/
def findUnsafeFunc (e : SExpr) : Option String :=
  e.funcNames.find? (fun n => ! SAFE_FUNCTIONS.contains n)

/-- The first symbol name of the parsed tree failing
`SAFE_SYMBOL_PATTERN`, if any. -/
def findUnsafeSym (e : SExpr) : Option String :=
  e.freeSymbols.find? (fun n => ! isSafeSymbolName n)

/-- The `except Exception as e` clause of `_safe_parse`: re-inspect the raw
text for attack substrings and banned punctuation to classify the failure,
falling back to a generic parse-failure message.  `msg` is `str(e)`. -/
def classifyParseError (s msg : String) : String :=
  if strContains s "eval" || strContains s "__import__" || strContains s "open" then
    "Unsafe function detected in expression \x27" ++ s ++ "\x27"
  else if strContains s "@" || strContains s "." || strContains s "-" then
    "Unsafe symbol pattern in expression \x27" ++ s ++ "\x27"
  else
    "Failed to parse expression \x27" ++ s ++ "\x27: " ++ msg

/-- `_safe_parse`: parse with the permissive grammar, then audit the tree
against the function allowlist and the symbol pattern.  The two audit
`raise ValueError` statements sit inside the `try`, so they are themselves
caught by `except Exception` and routed through `classifyParseError`, as is
any exception of `parse_expr`. -/
def _safe_parse (O : CAS) (expr_str : String) : Except String SExpr :=
  match O.parse expr_str with
  | .error msg => .error (classifyParseError expr_str msg)
  | .ok parsed =>
    match findUnsafeFunc parsed with
    | some f =>
      .error (classifyParseError expr_str
        ("Unsafe function \x27" ++ f ++ "\x27 not in allowlist"))
    | none =>
      match findUnsafeSym parsed with
      | some y =>
        .error (classifyParseError expr_str
          ("Unsafe symbol \x27" ++ y ++ "\x27 not in allowlist"))
      | none => .ok parsed

/-- `_remove_constants(expr, var)`: for a sum, keep the summands containing
the variable (the additive identity if none survives); otherwise keep the
whole expression iff it contains the variable. -/
def _remove_constants (expr : SExpr) (var : String) : SExpr :=
  match expr with
  | .add args =>
    let terms_with_var := args.filter (fun term => var ∈ term.freeSymbols)
    if terms_with_var.isEmpty then .int 0 else mkAdd terms_with_var
  | e => if var ∈ e.freeSymbols then e else .int 0

/-- The numeric-fallback loop shared by `derivative_equivalent`,
`integral_equivalent` and `algebra_equiv`: walk the test points; a point
where either `float(...)` raises `ValueError`/`TypeError` is skipped; a
point where both evaluate and `abs(diff) > tolerance` breaks the loop with
`numerical_equiv = False`; any other exception propagates out. -/
def numericLoop (ev1 ev2 : α → EvRes) (tol : ℚ) : List α → Except String Bool
  | [] => .ok true
  | p :: ps =>
    match ev1 p with
    | .hardErr m => .error m
    | .softErr => numericLoop ev1 ev2 tol ps
    | .val a =>
      match ev2 p with
      | .hardErr m => .error m
      | .softErr => numericLoop ev1 ev2 tol ps
      | .val b =>
        if floatAbsDiffGt a b tol then .ok false
        else numericLoop ev1 ev2 tol ps

/-- A point at which the fallback loop does not detect a mismatch: both
evaluations succeed and agree within tolerance, or at least one of them
fails (a skipped or loop-aborting point never registers a mismatch). -/
def pointOk (ev1 ev2 : α → EvRes) (tol : ℚ) (p : α) : Bool :=
  match ev1 p with
  | .val a =>
    match ev2 p with
    | .val b => ! floatAbsDiffGt a b tol
    | _ => true
  | _ => true

/-- The `details` dictionary of `derivative_equivalent`.  A field holds
`none` when its key is absent from the dictionary or explicitly `None`. -/
structure DerivDetails where
  computed : Option String := none
  expected : Option String := none
  symbolic_match : Option Bool := none
  numerical_match : Option Bool := none
  error : Option String := none
  deriving DecidableEq, Repr

/-- The result record of `derivative_equivalent`. -/
structure DerivResult where
  equivalent : Bool
  details : DerivDetails
  deriving DecidableEq, Repr

/-- The `details` dictionary of `integral_equivalent`. -/
structure IntegralDetails where
  computed : Option String := none
  expected : Option String := none
  computed_clean : Option String := none
  expected_clean : Option String := none
  symbolic_match : Option Bool := none
  numerical_match : Option Bool := none
  constant_free : Option Bool := none
  error : Option String := none
  deriving DecidableEq, Repr

/-- The result record of `integral_equivalent`. -/
structure IntegralResult where
  equivalent : Bool
  details : IntegralDetails
  deriving DecidableEq, Repr

/-- The `details` dictionary of `limit_equal`. -/
structure LimitDetails where
  computed : Option String := none
  limit_exists : Option Bool := none
  finite : Option Bool := none
  direction : Option String := none
  error : Option String := none
  deriving DecidableEq, Repr

/-- The result record of `limit_equal`. -/
structure LimitResult where
  equivalent : Bool
  details : LimitDetails
  deriving DecidableEq, Repr

/-- The `details` dictionary of `algebra_equiv`. -/
structure AlgebraDetails where
  lhs : Option String := none
  rhs : Option String := none
  symbolic_match : Option Bool := none
  numerical_match : Option Bool := none
  error : Option String := none
  deriving DecidableEq, Repr

/-- The result record of `algebra_equiv`. -/
structure AlgebraResult where
  equivalent : Bool
  details : AlgebraDetails
  deriving DecidableEq, Repr

/-- The `details` dictionary of `dimensional_check`. -/
structure DimDetails where
  expression : Option String := none
  expected_unit : Option String := none
  has_units : Option Bool := none
  note : Option String := none
  error : Option String := none
  deriving DecidableEq, Repr

/-- The result record of `dimensional_check`. -/
structure DimResult where
  equivalent : Bool
  details : DimDetails
  deriving DecidableEq, Repr

/-- The `details` dictionary of `numeric_probe`. -/
structure ProbeDetails where
  constant_value : Option FloatVal := none
  points_tested : Option Nat := none
  valid_evaluations : Option Nat := none
  evaluation_errors : Option Nat := none
  sample_results : Option (List FloatVal) := none
  error : Option String := none
  deriving DecidableEq, Repr

/-- The result record of `numeric_probe` (`valid` instead of
`equivalent`). -/
structure ProbeResult where
  valid : Bool
  details : ProbeDetails
  deriving DecidableEq, Repr

/-- The `try` block of `derivative_equivalent`: parse both operands, build
the variable, differentiate, simplify, test symbolic equality, and fall
back to the 10-point numeric loop when the symbolic test fails.  An
`.error` is an exception reaching the outer `except Exception`. -/
def derivative_body (O : CAS) (expr var expected : String) (tolerance : ℚ) :
    Except String DerivResult :=
  match _safe_parse O expr with
  | .error e => .error e
  | .ok expr_sympy =>
  match _safe_parse O expected with
  | .error e => .error e
  | .ok expected_sympy =>
  match O.mkSym var with
  | .error e => .error e
  | .ok var_sympy =>
  match O.diffE expr_sympy var_sympy with
  | .error e => .error e
  | .ok computed_derivative =>
  match O.simplifyE computed_derivative with
  | .error e => .error e
  | .ok computed_simplified =>
  match O.simplifyE expected_sympy with
  | .error e => .error e
  | .ok expected_simplified =>
  match O.isZeroSimplify computed_simplified expected_simplified with
  | .error e => .error e
  | .ok symbolic_equiv =>
  if symbolic_equiv then
    .ok { equivalent := true,
          details := { computed := some (O.sstr computed_simplified),
                       expected := some (O.sstr expected_simplified),
                       symbolic_match := some true,
                       numerical_match := some true } }
  else
    match O.genPoints expr_sympy var_sympy 10 with
    | .error e => .error e
    | .ok test_points =>
    match numericLoop
        (fun p => O.evalAt computed_simplified [(var_sympy, p)])
        (fun p => O.evalAt expected_simplified [(var_sympy, p)])
        tolerance test_points with
    | .error e => .error e
    | .ok numerical_equiv =>
      .ok { equivalent := numerical_equiv,
            details := { computed := some (O.sstr computed_simplified),
                         expected := some (O.sstr expected_simplified),
                         symbolic_match := some false,
                         numerical_match := some numerical_equiv } }

/-- `derivative_equivalent(expr, var, expected, tolerance)`. -/
def derivative_equivalent (O : CAS) (expr var expected : String)
    (tolerance : ℚ) : DerivResult :=
  match derivative_body O expr var expected tolerance with
  | .ok r => r
  | .error e => { equivalent := false, details := { error := some e } }

/-- The `try` block of `integral_equivalent`: parse, integrate, optionally
strip constants of integration from both sides, simplify, test symbolic
equality, and fall back to the 10-point numeric loop. -/
def integral_body (O : CAS) (expr var expected : String)
    (constant_free : Bool) (tolerance : ℚ) : Except String IntegralResult :=
  match _safe_parse O expr with
  | .error e => .error e
  | .ok expr_sympy =>
  match _safe_parse O expected with
  | .error e => .error e
  | .ok expected_sympy =>
  match O.mkSym var with
  | .error e => .error e
  | .ok var_sympy =>
  match O.integrateE expr_sympy var_sympy with
  | .error e => .error e
  | .ok computed_integral =>
  let computed_clean :=
    if constant_free then _remove_constants computed_integral var_sympy
    else computed_integral
  let expected_clean :=
    if constant_free then _remove_constants expected_sympy var_sympy
    else expected_sympy
  match O.simplifyE computed_clean with
  | .error e => .error e
  | .ok computed_simplified =>
  match O.simplifyE expected_clean with
  | .error e => .error e
  | .ok expected_simplified =>
  match O.isZeroSimplify computed_simplified expected_simplified with
  | .error e => .error e
  | .ok symbolic_equiv =>
  if symbolic_equiv then
    .ok { equivalent := true,
          details := { computed := some (O.sstr computed_integral),
                       expected := some (O.sstr expected_sympy),
                       computed_clean := some (O.sstr computed_simplified),
                       expected_clean := some (O.sstr expected_simplified),
                       symbolic_match := some true,
                       numerical_match := some true,
                       constant_free := some constant_free } }
  else
    match O.genPoints expr_sympy var_sympy 10 with
    | .error e => .error e
    | .ok test_points =>
    match numericLoop
        (fun p => O.evalAt computed_simplified [(var_sympy, p)])
        (fun p => O.evalAt expected_simplified [(var_sympy, p)])
        tolerance test_points with
    | .error e => .error e
    | .ok numerical_equiv =>
      .ok { equivalent := numerical_equiv,
            details := { computed := some (O.sstr computed_integral),
                         expected := some (O.sstr expected_sympy),
                         computed_clean := some (O.sstr computed_simplified),
                         expected_clean := some (O.sstr expected_simplified),
                         symbolic_match := some false,
                         numerical_match := some numerical_equiv,
                         constant_free := some constant_free } }

/-- `integral_equivalent(expr, var, expected, constant_free, tolerance)`. -/
def integral_equivalent (O : CAS) (expr var expected : String)
    (constant_free : Bool) (tolerance : ℚ) : IntegralResult :=
  match integral_body O expr var expected constant_free tolerance with
  | .ok r => r
  | .error e => { equivalent := false, details := { error := some e } }

/-- The direction dispatch of `limit_equal`: `dir` is minus for `left`,
plus for `right`, and the default-direction call for anything else (the
source's `else` branch, commented `# both`). -/
def limDirOf (direction : String) : LimDir :=
  if direction = "left" then .minus
  else if direction = "right" then .plus
  else .dflt

/-- The explicit one-sided cross-check run by `limit_equal` when the
direction is the literal `both`: evaluate the left- and right-sided limits
separately and compare them structurally (`left_limit != right_limit`). -/
def limitBothAgree (O : CAS) (expr_sympy : SExpr) (var_sympy : String)
    (to_sympy : SExpr) : Except String Bool :=
  match O.limitE expr_sympy var_sympy to_sympy .minus with
  | .error e => .error e
  | .ok left_limit =>
    match O.limitE expr_sympy var_sympy to_sympy .plus with
    | .error e => .error e
    | .ok right_limit => .ok (left_limit == right_limit)

/-- The `try` block of `limit_equal` for a string limit point: parse, take
the limit in the requested direction, report non-existence for `None`/`nan`
and (for direction `both` exactly) when the separately computed one-sided
limits differ, report non-finiteness for `oo`/`-oo`, and declare
`equivalent=True` otherwise. -/
def limit_body (O : CAS) (expr var toV direction : String) :
    Except String LimitResult :=
  match _safe_parse O expr with
  | .error e => .error e
  | .ok expr_sympy =>
  match O.mkSym var with
  | .error e => .error e
  | .ok var_sympy =>
  match _safe_parse O toV with
  | .error e => .error e
  | .ok to_sympy =>
  match O.limitE expr_sympy var_sympy to_sympy (limDirOf direction) with
  | .error e => .error e
  | .ok computed_limit =>
  match computed_limit with
  | none =>
    .ok { equivalent := false,
          details := { computed := none, limit_exists := some false,
                       error := some "Limit does not exist" } }
  | some l =>
  if l == SExpr.nanC then
    .ok { equivalent := false,
          details := { computed := none, limit_exists := some false,
                       error := some "Limit does not exist" } }
  else
  match
    (if direction = "both" then limitBothAgree O expr_sympy var_sympy to_sympy
     else .ok true) with
  | .error e => .error e
  | .ok sidesAgree =>
  if ! sidesAgree then
    .ok { equivalent := false,
          details := { computed := none, limit_exists := some false,
                       error := some "Left and right limits differ" } }
  else
  if l == SExpr.ooC || l == SExpr.ninfC then
    .ok { equivalent := false,
          details := { computed := some (O.sstr l),
                       limit_exists := some true,
                       finite := some false } }
  else
    .ok { equivalent := true,
          details := { computed := some (O.sstr l),
                       limit_exists := some true,
                       finite := some true,
                       direction := some direction } }


/-- `limit_equal(expr, var, to, direction, tolerance)` for a string limit
point (the numeric branch `sp.Rational(to)` is not exercised by any claim;
`tolerance` is accepted and unused, exactly as in the source). -/
def limit_equal (O : CAS) (expr var toV direction : String) (tolerance : ℚ) :
    LimitResult :=
  match limit_body O expr var toV direction with
  | .ok r => r
  | .error e => { equivalent := false, details := { error := some e } }

/-- The symbol-free branch of `algebra_equiv`'s numeric fallback: convert
both simplified constants with `float(...)` and compare within tolerance; a
`ValueError`/`TypeError` from either conversion yields
`numerical_equiv = False`; any other exception propagates out. -/
def algebraConstCompare (O : CAS) (lhs_simplified rhs_simplified : SExpr)
    (tolerance : ℚ) : Except String Bool :=
  match O.toFloat lhs_simplified with
  | .hardErr m => .error m
  | .softErr => .ok false
  | .val lhs_val =>
    match O.toFloat rhs_simplified with
    | .hardErr m => .error m
    | .softErr => .ok false
    | .val rhs_val => .ok (floatAbsDiffLe lhs_val rhs_val tolerance)

/-- The `try` block of `algebra_equiv`: parse and simplify both sides, test
symbolic equality, and on failure fall back numerically: with free symbols
present, the 10-point multi-symbol loop; with none, the direct constant
comparison. -/
def algebra_body (O : CAS) (lhs rhs : String) (tolerance : ℚ) :
    Except String AlgebraResult :=
  match _safe_parse O lhs with
  | .error e => .error e
  | .ok lhs_sympy =>
  match _safe_parse O rhs with
  | .error e => .error e
  | .ok rhs_sympy =>
  match O.simplifyE lhs_sympy with
  | .error e => .error e
  | .ok lhs_simplified =>
  match O.simplifyE rhs_sympy with
  | .error e => .error e
  | .ok rhs_simplified =>
  match O.isZeroSimplify lhs_simplified rhs_simplified with
  | .error e => .error e
  | .ok symbolic_equiv =>
  if symbolic_equiv then
    .ok { equivalent := true,
          details := { lhs := some (O.sstr lhs_simplified),
                       rhs := some (O.sstr rhs_simplified),
                       symbolic_match := some true,
                       numerical_match := some true } }
  else
    match O.orAtoms lhs_sympy rhs_sympy with
    | .error e => .error e
    | .ok all_symbols =>
    match
      (if ! all_symbols.isEmpty then
        numericLoop
          (fun point_dict => O.evalAt lhs_simplified point_dict)
          (fun point_dict => O.evalAt rhs_simplified point_dict)
          tolerance (O.genPointsMulti all_symbols 10)
       else
        algebraConstCompare O lhs_simplified rhs_simplified tolerance) with
    | .error e => .error e
    | .ok numerical_equiv =>
      .ok { equivalent := numerical_equiv,
            details := { lhs := some (O.sstr lhs_simplified),
                         rhs := some (O.sstr rhs_simplified),
                         symbolic_match := some false,
                         numerical_match := some numerical_equiv } }

/-- `algebra_equiv(lhs, rhs, tolerance)`. -/
def algebra_equiv (O : CAS) (lhs rhs : String) (tolerance : ℚ) :
    AlgebraResult :=
  match algebra_body O lhs rhs tolerance with
  | .ok r => r
  | .error e => { equivalent := false, details := { error := some e } }

/-- The fixed token list `unit_patterns` of `dimensional_check`,
verbatim. -/
def unit_patterns : List String :=
  ["m", "s", "kg", "N", "J", "W", "A", "V", "F", "H", "T", "C", "mol"]

/-- `has_units`: some token of `unit_patterns` occurs as a substring of the
stringified parsed expression. -/
def hasUnits (expr_str : String) : Bool :=
  unit_patterns.any (fun pattern => strContains expr_str pattern)

/-- The `try` block of `dimensional_check`: parse the expression, parse the
expected unit through the unit registry (the resulting unit object is never
used), and return the mere presence of a unit token as the verdict. -/
def dimensional_body (O : CAS) (expr expected_unit : String) :
    Except String DimResult :=
  match _safe_parse O expr with
  | .error e => .error e
  | .ok expr_sympy =>
  match O.pintParse expected_unit with
  | .error e => .error e
  | .ok _ =>
  let expr_str := O.sstr expr_sympy
  let has_units := hasUnits expr_str
  .ok { equivalent := has_units,
        details := { expression := some expr_str,
                     expected_unit := some expected_unit,
                     has_units := some has_units,
                     note := some "Simplified unit checking - full implementation would require proper unit analysis" } }

/-- `dimensional_check(expr, expected_unit)`; note that the failure path of
the source keeps `expected_unit` in the details. -/
def dimensional_check (O : CAS) (expr expected_unit : String) : DimResult :=
  match dimensional_body O expr expected_unit with
  | .ok r => r
  | .error e =>
    { equivalent := false,
      details := { error := some e, expected_unit := some expected_unit } }

/-- The per-point tally of `numeric_probe`: returns
`(valid_count, error_count, results)` in order, where an evaluation
raising `ValueError`/`TypeError`/`ZeroDivisionError` or producing a
non-finite float counts as an error; any other exception propagates out. -/
def probeLoop (ev : List (String × ℚ) → EvRes) :
    List (List (String × ℚ)) → Except String (Nat × Nat × List FloatVal)
  | [] => .ok (0, 0, [])
  | point_dict :: rest =>
    match ev point_dict with
    | .hardErr m => .error m
    | .softErr =>
      match probeLoop ev rest with
      | .error e => .error e
      | .ok (v, e, rs) => .ok (v, e + 1, rs)
    | .val result =>
      if result.isFinite then
        match probeLoop ev rest with
        | .error e => .error e
        | .ok (v, e, rs) => .ok (v + 1, e, result :: rs)
      else
        match probeLoop ev rest with
        | .error e => .error e
        | .ok (v, e, rs) => .ok (v, e + 1, rs)

/-- The `try` block of `numeric_probe`: parse; for a symbol-free
expression, convert with `float(...)` and report the constant (with no
finiteness check); otherwise evaluate at sampled points and declare
validity iff at least one evaluation produced a finite float. -/
def numeric_probe_body (O : CAS) (expr : String) (num_points : Nat) :
    Except String ProbeResult :=
  match _safe_parse O expr with
  | .error e => .error e
  | .ok expr_sympy =>
  let symbols_list := expr_sympy.freeSymbols
  if symbols_list.isEmpty then
    match O.toFloat expr_sympy with
    | .hardErr m => .error m
    | .softErr =>
      .ok { valid := false,
            details := { error := some "Failed to evaluate constant expression",
                         points_tested := some 0,
                         evaluation_errors := some 1 } }
    | .val result =>
      .ok { valid := true,
            details := { constant_value := some result,
                         points_tested := some 0,
                         evaluation_errors := some 0 } }
  else
    let test_points := O.genPointsMulti symbols_list num_points
    match probeLoop (fun point_dict => O.evalAt expr_sympy point_dict)
        test_points with
    | .error e => .error e
    | .ok (valid_count, error_count, results) =>
      .ok { valid := decide (0 < valid_count),
            details := { points_tested := some test_points.length,
                         valid_evaluations := some valid_count,
                         evaluation_errors := some error_count,
                         sample_results := some (results.take 5) } }

/-- `numeric_probe(expr, num_points)`. -/
def numeric_probe (O : CAS) (expr : String) (num_points : Nat) :
    ProbeResult :=
  match numeric_probe_body O expr num_points with
  | .ok r => r
  | .error e =>
    { valid := false,
      details := { error := some e, points_tested := some 0,
                   evaluation_errors := some 1 } }

/-- A string with a nonempty prefix is nonempty. -/
lemma append_ne_empty_left (a b : String) (ha : a ≠ "") : a ++ b ≠ "" := by
  intro hc
  have h2 := congrArg String.data hc
  simp only [String.data_append] at h2
  rcases List.append_eq_nil.mp h2 with ⟨h3, _⟩
  exact ha (String.ext h3)

/-- Every message produced by the `except` clause of `_safe_parse` starts
with a fixed nonempty literal, hence is nonempty. -/
lemma classifyParseError_ne_empty (s msg : String) :
    classifyParseError s msg ≠ "" := by
  unfold classifyParseError
  split
  · exact append_ne_empty_left _ _
      (append_ne_empty_left _ _ (by decide))
  · split
    · exact append_ne_empty_left _ _
        (append_ne_empty_left _ _ (by decide))
    · exact append_ne_empty_left _ _
        (append_ne_empty_left _ _ (append_ne_empty_left _ _ (by decide)))

/-- `_safe_parse` only fails with a nonempty message. -/
lemma _safe_parse_error_ne_empty (O : CAS) (s m : String)
    (h : _safe_parse O s = .error m) : m ≠ "" := by
  unfold _safe_parse at h
  split at h
  · cases h
    exact classifyParseError_ne_empty _ _
  · split at h
    · cases h
      exact classifyParseError_ne_empty _ _
    · split at h
      · cases h
        exact classifyParseError_ne_empty _ _
      · cases h

/-- If the fallback loop terminates normally, its verdict is exactly
"no visited point detected a mismatch": the conjunction of `pointOk` over
all points. -/
lemma numericLoop_ok (ev1 ev2 : α → EvRes) (tol : ℚ) (ps : List α) (b : Bool)
    (h : numericLoop ev1 ev2 tol ps = .ok b) :
    b = ps.all (pointOk ev1 ev2 tol) := by
  induction ps with
  | nil =>
    unfold numericLoop at h
    cases h
    rfl
  | cons p ps ih =>
    unfold numericLoop at h
    cases hv1 : ev1 p with
    | hardErr m => simp only [hv1] at h; cases h
    | softErr =>
      simp only [hv1] at h
      simp [List.all_cons, pointOk, hv1, ih h]
    | val a =>
      simp only [hv1] at h
      cases hv2 : ev2 p with
      | hardErr m => simp only [hv2] at h; cases h
      | softErr =>
        simp only [hv2] at h
        simp [List.all_cons, pointOk, hv1, hv2, ih h]
      | val b2 =>
        simp only [hv2] at h
        by_cases hgt : floatAbsDiffGt a b2 tol = true
        · rw [if_pos hgt] at h
          cases h
          simp [List.all_cons, pointOk, hv1, hv2, hgt]
        · rw [if_neg hgt] at h
          simp only [Bool.not_eq_true] at hgt
          simp [List.all_cons, pointOk, hv1, hv2, hgt, ih h]

/-- If the first evaluation fails softly at every point, the loop skips
them all and reports a (vacuous) numerical match. -/
lemma numericLoop_all_soft (ev1 ev2 : α → EvRes) (tol : ℚ) (ps : List α)
    (h : ∀ p ∈ ps, ev1 p = .softErr) :
    numericLoop ev1 ev2 tol ps = .ok true := by
  induction ps with
  | nil => rfl
  | cons p ps ih =>
    unfold numericLoop
    rw [h p (List.mem_cons_self p ps)]
    exact ih (fun q hq => h q (List.mem_cons_of_mem p hq))

/-- A loop failure is a hard evaluation failure at one of the points. -/
lemma numericLoop_error (ev1 ev2 : α → EvRes) (tol : ℚ) (ps : List α)
    (m : String) (h : numericLoop ev1 ev2 tol ps = .error m) :
    ∃ p ∈ ps, ev1 p = .hardErr m ∨ ev2 p = .hardErr m := by
  induction ps with
  | nil => cases h
  | cons p ps ih =>
    unfold numericLoop at h
    cases hv1 : ev1 p with
    | hardErr m2 =>
      simp only [hv1] at h
      cases h
      exact ⟨p, List.mem_cons_self p ps, Or.inl hv1⟩
    | softErr =>
      simp only [hv1] at h
      rcases ih h with ⟨q, hq, hcase⟩
      exact ⟨q, List.mem_cons_of_mem p hq, hcase⟩
    | val a =>
      simp only [hv1] at h
      cases hv2 : ev2 p with
      | hardErr m2 =>
        simp only [hv2] at h
        cases h
        exact ⟨p, List.mem_cons_self p ps, Or.inr hv2⟩
      | softErr =>
        simp only [hv2] at h
        rcases ih h with ⟨q, hq, hcase⟩
        exact ⟨q, List.mem_cons_of_mem p hq, hcase⟩
      | val b2 =>
        simp only [hv2] at h
        by_cases hgt : floatAbsDiffGt a b2 tol = true
        · rw [if_pos hgt] at h; cases h
        · rw [if_neg hgt] at h
          rcases ih h with ⟨q, hq, hcase⟩
          exact ⟨q, List.mem_cons_of_mem p hq, hcase⟩

/-- A probe-tally failure is a hard evaluation failure at one of the
points. -/
lemma probeLoop_error (ev : List (String × ℚ) → EvRes)
    (ps : List (List (String × ℚ))) (m : String)
    (h : probeLoop ev ps = .error m) : ∃ p ∈ ps, ev p = .hardErr m := by
  induction ps with
  | nil => cases h
  | cons p ps ih =>
    unfold probeLoop at h
    cases hv : ev p with
    | hardErr m2 =>
      simp only [hv] at h
      cases h
      exact ⟨p, List.mem_cons_self p ps, hv⟩
    | softErr =>
      simp only [hv] at h
      cases hr : probeLoop ev ps with
      | error e =>
        rw [hr] at h
        cases h
        rcases ih hr with ⟨q, hq, hcase⟩
        exact ⟨q, List.mem_cons_of_mem p hq, hcase⟩
      | ok t =>
        rcases t with ⟨v, e, rs⟩
        rw [hr] at h
        cases h
    | val r =>
      simp only [hv] at h
      by_cases hf : r.isFinite = true
      · rw [if_pos hf] at h
        cases hr : probeLoop ev ps with
        | error e =>
          rw [hr] at h
          cases h
          rcases ih hr with ⟨q, hq, hcase⟩
          exact ⟨q, List.mem_cons_of_mem p hq, hcase⟩
        | ok t =>
          rcases t with ⟨v, e, rs⟩
          rw [hr] at h
          cases h
      · rw [if_neg hf] at h
        cases hr : probeLoop ev ps with
        | error e =>
          rw [hr] at h
          cases h
          rcases ih hr with ⟨q, hq, hcase⟩
          exact ⟨q, List.mem_cons_of_mem p hq, hcase⟩
        | ok t =>
          rcases t with ⟨v, e, rs⟩
          rw [hr] at h
          cases h

/-- Well-formedness of the modelled libraries: every exception carries a
nonempty `str(e)`.  (CPython exception reprs of the SymPy, NumPy and pint
failure modes reached here are nonempty strings.) -/
structure CASWellFormed (O : CAS) : Prop where
  mkSym : ∀ s m, O.mkSym s = .error m → m ≠ ""
  diffE : ∀ e v m, O.diffE e v = .error m → m ≠ ""
  integrateE : ∀ e v m, O.integrateE e v = .error m → m ≠ ""
  simplifyE : ∀ e m, O.simplifyE e = .error m → m ≠ ""
  isZeroSimplify : ∀ a b m, O.isZeroSimplify a b = .error m → m ≠ ""
  limitE : ∀ e v t d m, O.limitE e v t d = .error m → m ≠ ""
  genPoints : ∀ e v n m, O.genPoints e v n = .error m → m ≠ ""
  evalAt : ∀ e a m, O.evalAt e a = .hardErr m → m ≠ ""
  toFloat : ∀ e m, O.toFloat e = .hardErr m → m ≠ ""
  orAtoms : ∀ a b m, O.orAtoms a b = .error m → m ≠ ""
  pintParse : ∀ s m, O.pintParse s = .error m → m ≠ ""

/-- Any exception escaping the `try` block of `derivative_equivalent`
carries a nonempty message. -/
lemma derivative_body_error_ne (O : CAS) (hWF : CASWellFormed O)
    (expr var expected : String) (tol : ℚ) (m : String)
    (h : derivative_body O expr var expected tol = .error m) : m ≠ "" := by
  unfold derivative_body at h
  cases h1 : _safe_parse O expr with
  | error e =>
    simp only [h1] at h
    cases h
    exact _safe_parse_error_ne_empty _ _ _ h1
  | ok expr_sympy =>
    simp only [h1] at h
    cases h2 : _safe_parse O expected with
    | error e =>
      simp only [h2] at h
      cases h
      exact _safe_parse_error_ne_empty _ _ _ h2
    | ok expected_sympy =>
      simp only [h2] at h
      cases h3 : O.mkSym var with
      | error e =>
        simp only [h3] at h
        cases h
        exact hWF.mkSym _ _ h3
      | ok var_sympy =>
        simp only [h3] at h
        cases h4 : O.diffE expr_sympy var_sympy with
        | error e =>
          simp only [h4] at h
          cases h
          exact hWF.diffE _ _ _ h4
        | ok computed_derivative =>
          simp only [h4] at h
          cases h5 : O.simplifyE computed_derivative with
          | error e =>
            simp only [h5] at h
            cases h
            exact hWF.simplifyE _ _ h5
          | ok computed_simplified =>
            simp only [h5] at h
            cases h6 : O.simplifyE expected_sympy with
            | error e =>
              simp only [h6] at h
              cases h
              exact hWF.simplifyE _ _ h6
            | ok expected_simplified =>
              simp only [h6] at h
              cases h7 : O.isZeroSimplify computed_simplified expected_simplified with
              | error e =>
                simp only [h7] at h
                cases h
                exact hWF.isZeroSimplify _ _ _ h7
              | ok symbolic_equiv =>
                simp only [h7] at h
                cases symbolic_equiv with
                | true => simp only [if_pos] at h; cases h
                | false =>
                  simp only [Bool.false_eq_true, if_neg] at h
                  cases h8 : O.genPoints expr_sympy var_sympy 10 with
                  | error e =>
                    simp only [h8] at h
                    cases h
                    exact hWF.genPoints _ _ _ _ h8
                  | ok test_points =>
                    simp only [h8] at h
                    cases h9 : numericLoop
                        (fun p => O.evalAt computed_simplified [(var_sympy, p)])
                        (fun p => O.evalAt expected_simplified [(var_sympy, p)])
                        tol test_points with
                    | error e =>
                      simp only [h9] at h
                      cases h
                      rcases numericLoop_error _ _ _ _ _ h9 with ⟨q, hq, hc | hc⟩
                      · exact hWF.evalAt _ _ _ hc
                      · exact hWF.evalAt _ _ _ hc
                    | ok numerical_equiv =>
                      simp only [h9] at h
                      cases h

/-- A normal return of `derivative_equivalent`'s `try` block never carries
an `error` entry. -/
lemma derivative_body_ok_error (O : CAS) (expr var expected : String)
    (tol : ℚ) (r : DerivResult)
    (h : derivative_body O expr var expected tol = .ok r) :
    r.details.error = none := by
  unfold derivative_body at h
  cases h1 : _safe_parse O expr with
  | error e => simp only [h1] at h; cases h
  | ok expr_sympy =>
    simp only [h1] at h
    cases h2 : _safe_parse O expected with
    | error e => simp only [h2] at h; cases h
    | ok expected_sympy =>
      simp only [h2] at h
      cases h3 : O.mkSym var with
      | error e => simp only [h3] at h; cases h
      | ok var_sympy =>
        simp only [h3] at h
        cases h4 : O.diffE expr_sympy var_sympy with
        | error e => simp only [h4] at h; cases h
        | ok computed_derivative =>
          simp only [h4] at h
          cases h5 : O.simplifyE computed_derivative with
          | error e => simp only [h5] at h; cases h
          | ok computed_simplified =>
            simp only [h5] at h
            cases h6 : O.simplifyE expected_sympy with
            | error e => simp only [h6] at h; cases h
            | ok expected_simplified =>
              simp only [h6] at h
              cases h7 : O.isZeroSimplify computed_simplified expected_simplified with
              | error e => simp only [h7] at h; cases h
              | ok symbolic_equiv =>
                simp only [h7] at h
                cases symbolic_equiv with
                | true =>
                  simp only [if_pos] at h
                  cases h
                  rfl
                | false =>
                  simp only [Bool.false_eq_true, if_neg] at h
                  cases h8 : O.genPoints expr_sympy var_sympy 10 with
                  | error e => simp only [h8] at h; cases h
                  | ok test_points =>
                    simp only [h8] at h
                    cases h9 : numericLoop
                        (fun p => O.evalAt computed_simplified [(var_sympy, p)])
                        (fun p => O.evalAt expected_simplified [(var_sympy, p)])
                        tol test_points with
                    | error e => simp only [h9] at h; cases h
                    | ok numerical_equiv =>
                      simp only [h9] at h
                      cases h
                      rfl

/-- Any exception escaping the `try` block of `integral_equivalent`
carries a nonempty message. -/
lemma integral_body_error_ne (O : CAS) (hWF : CASWellFormed O)
    (expr var expected : String) (cf : Bool) (tol : ℚ) (m : String)
    (h : integral_body O expr var expected cf tol = .error m) : m ≠ "" := by
  unfold integral_body at h
  cases h1 : _safe_parse O expr with
  | error e =>
    simp only [h1] at h
    cases h
    exact _safe_parse_error_ne_empty _ _ _ h1
  | ok expr_sympy =>
    simp only [h1] at h
    cases h2 : _safe_parse O expected with
    | error e =>
      simp only [h2] at h
      cases h
      exact _safe_parse_error_ne_empty _ _ _ h2
    | ok expected_sympy =>
      simp only [h2] at h
      cases h3 : O.mkSym var with
      | error e =>
        simp only [h3] at h
        cases h
        exact hWF.mkSym _ _ h3
      | ok var_sympy =>
        simp only [h3] at h
        cases h4 : O.integrateE expr_sympy var_sympy with
        | error e =>
          simp only [h4] at h
          cases h
          exact hWF.integrateE _ _ _ h4
        | ok computed_integral =>
          simp only [h4] at h
          cases h5 : O.simplifyE
              (if cf = true then _remove_constants computed_integral var_sympy
               else computed_integral) with
          | error e =>
            simp only [h5] at h
            cases h
            exact hWF.simplifyE _ _ h5
          | ok computed_simplified =>
            simp only [h5] at h
            cases h6 : O.simplifyE
                (if cf = true then _remove_constants expected_sympy var_sympy
                 else expected_sympy) with
            | error e =>
              simp only [h6] at h
              cases h
              exact hWF.simplifyE _ _ h6
            | ok expected_simplified =>
              simp only [h6] at h
              cases h7 : O.isZeroSimplify computed_simplified expected_simplified with
              | error e =>
                simp only [h7] at h
                cases h
                exact hWF.isZeroSimplify _ _ _ h7
              | ok symbolic_equiv =>
                simp only [h7] at h
                cases symbolic_equiv with
                | true => simp only [if_pos] at h; cases h
                | false =>
                  simp only [Bool.false_eq_true, if_neg] at h
                  cases h8 : O.genPoints expr_sympy var_sympy 10 with
                  | error e =>
                    simp only [h8] at h
                    cases h
                    exact hWF.genPoints _ _ _ _ h8
                  | ok test_points =>
                    simp only [h8] at h
                    cases h9 : numericLoop
                        (fun p => O.evalAt computed_simplified [(var_sympy, p)])
                        (fun p => O.evalAt expected_simplified [(var_sympy, p)])
                        tol test_points with
                    | error e =>
                      simp only [h9] at h
                      cases h
                      rcases numericLoop_error _ _ _ _ _ h9 with ⟨q, hq, hc | hc⟩
                      · exact hWF.evalAt _ _ _ hc
                      · exact hWF.evalAt _ _ _ hc
                    | ok numerical_equiv =>
                      simp only [h9] at h
                      cases h

/-- A normal return of `integral_equivalent`'s `try` block never carries
an `error` entry. -/
lemma integral_body_ok_error (O : CAS) (expr var expected : String)
    (cf : Bool) (tol : ℚ) (r : IntegralResult)
    (h : integral_body O expr var expected cf tol = .ok r) :
    r.details.error = none := by
  unfold integral_body at h
  cases h1 : _safe_parse O expr with
  | error e => simp only [h1] at h; cases h
  | ok expr_sympy =>
    simp only [h1] at h
    cases h2 : _safe_parse O expected with
    | error e => simp only [h2] at h; cases h
    | ok expected_sympy =>
      simp only [h2] at h
      cases h3 : O.mkSym var with
      | error e => simp only [h3] at h; cases h
      | ok var_sympy =>
        simp only [h3] at h
        cases h4 : O.integrateE expr_sympy var_sympy with
        | error e => simp only [h4] at h; cases h
        | ok computed_integral =>
          simp only [h4] at h
          cases h5 : O.simplifyE
              (if cf = true then _remove_constants computed_integral var_sympy
               else computed_integral) with
          | error e => simp only [h5] at h; cases h
          | ok computed_simplified =>
            simp only [h5] at h
            cases h6 : O.simplifyE
                (if cf = true then _remove_constants expected_sympy var_sympy
                 else expected_sympy) with
            | error e => simp only [h6] at h; cases h
            | ok expected_simplified =>
              simp only [h6] at h
              cases h7 : O.isZeroSimplify computed_simplified expected_simplified with
              | error e => simp only [h7] at h; cases h
              | ok symbolic_equiv =>
                simp only [h7] at h
                cases symbolic_equiv with
                | true =>
                  simp only [if_pos] at h
                  cases h
                  rfl
                | false =>
                  simp only [Bool.false_eq_true, if_neg] at h
                  cases h8 : O.genPoints expr_sympy var_sympy 10 with
                  | error e => simp only [h8] at h; cases h
                  | ok test_points =>
                    simp only [h8] at h
                    cases h9 : numericLoop
                        (fun p => O.evalAt computed_simplified [(var_sympy, p)])
                        (fun p => O.evalAt expected_simplified [(var_sympy, p)])
                        tol test_points with
                    | error e => simp only [h9] at h; cases h
                    | ok numerical_equiv =>
                      simp only [h9] at h
                      cases h
                      rfl

/-- Any exception escaping the one-sided cross-check comes from a `limit`
call and carries a nonempty message. -/
lemma limitBothAgree_error_ne (O : CAS) (hWF : CASWellFormed O)
    (e : SExpr) (v : String) (t : SExpr) (m : String)
    (h : limitBothAgree O e v t = .error m) : m ≠ "" := by
  unfold limitBothAgree at h
  cases h1 : O.limitE e v t .minus with
  | error e2 =>
    simp only [h1] at h
    cases h
    exact hWF.limitE _ _ _ _ _ h1
  | ok left_limit =>
    simp only [h1] at h
    cases h2 : O.limitE e v t .plus with
    | error e2 =>
      simp only [h2] at h
      cases h
      exact hWF.limitE _ _ _ _ _ h2
    | ok right_limit =>
      simp only [h2] at h
      cases h

/-- Any exception escaping the `try` block of `limit_equal` carries a
nonempty message. -/
lemma limit_body_error_ne (O : CAS) (hWF : CASWellFormed O)
    (expr var toV direction : String) (m : String)
    (h : limit_body O expr var toV direction = .error m) : m ≠ "" := by
  unfold limit_body at h
  cases h1 : _safe_parse O expr with
  | error e =>
    simp only [h1] at h
    cases h
    exact _safe_parse_error_ne_empty _ _ _ h1
  | ok expr_sympy =>
    simp only [h1] at h
    cases h2 : O.mkSym var with
    | error e =>
      simp only [h2] at h
      cases h
      exact hWF.mkSym _ _ h2
    | ok var_sympy =>
      simp only [h2] at h
      cases h3 : _safe_parse O toV with
      | error e =>
        simp only [h3] at h
        cases h
        exact _safe_parse_error_ne_empty _ _ _ h3
      | ok to_sympy =>
        simp only [h3] at h
        cases h4 : O.limitE expr_sympy var_sympy to_sympy (limDirOf direction) with
        | error e =>
          simp only [h4] at h
          cases h
          exact hWF.limitE _ _ _ _ _ h4
        | ok computed_limit =>
          simp only [h4] at h
          cases computed_limit with
          | none => cases h
          | some l =>
            simp only [] at h
            by_cases hn : (l == SExpr.nanC) = true
            · rw [if_pos hn] at h
              cases h
            · rw [if_neg hn] at h
              cases hB : (if direction = "both"
                  then limitBothAgree O expr_sympy var_sympy to_sympy
                  else Except.ok true) with
              | error e =>
                simp only [hB] at h
                cases h
                by_cases hd : direction = "both"
                · rw [if_pos hd] at hB
                  exact limitBothAgree_error_ne O hWF _ _ _ _ hB
                · rw [if_neg hd] at hB
                  cases hB
              | ok sidesAgree =>
                simp only [hB] at h
                cases sidesAgree with
                | false => cases h
                | true =>
                  by_cases hf : (l == SExpr.ooC || l == SExpr.ninfC) = true
                  · simp only [hf] at h
                    cases h
                  · simp only [Bool.not_eq_true] at hf
                    simp only [hf] at h
                    cases h

/-- A normal return of `limit_equal`'s `try` block carrying an `error`
entry is one of the two non-existence reports: it is not `equivalent` and
its message is one of two nonempty literals. -/
lemma limit_body_ok_err (O : CAS) (expr var toV direction : String)
    (r : LimitResult) (m : String)
    (h : limit_body O expr var toV direction = .ok r)
    (hm : r.details.error = some m) : r.equivalent = false ∧ m ≠ "" := by
  unfold limit_body at h
  cases h1 : _safe_parse O expr with
  | error e => simp only [h1] at h; cases h
  | ok expr_sympy =>
    simp only [h1] at h
    cases h2 : O.mkSym var with
    | error e => simp only [h2] at h; cases h
    | ok var_sympy =>
      simp only [h2] at h
      cases h3 : _safe_parse O toV with
      | error e => simp only [h3] at h; cases h
      | ok to_sympy =>
        simp only [h3] at h
        cases h4 : O.limitE expr_sympy var_sympy to_sympy (limDirOf direction) with
        | error e => simp only [h4] at h; cases h
        | ok computed_limit =>
          simp only [h4] at h
          cases computed_limit with
          | none =>
            cases h
            cases hm
            exact ⟨rfl, by decide⟩
          | some l =>
            simp only [] at h
            by_cases hn : (l == SExpr.nanC) = true
            · rw [if_pos hn] at h
              cases h
              cases hm
              exact ⟨rfl, by decide⟩
            · rw [if_neg hn] at h
              cases hB : (if direction = "both"
                  then limitBothAgree O expr_sympy var_sympy to_sympy
                  else Except.ok true) with
              | error e => simp only [hB] at h; cases h
              | ok sidesAgree =>
                simp only [hB] at h
                cases sidesAgree with
                | false =>
                  cases h
                  cases hm
                  exact ⟨rfl, by decide⟩
                | true =>
                  by_cases hf : (l == SExpr.ooC || l == SExpr.ninfC) = true
                  · simp only [hf] at h
                    cases h
                    cases hm
                  · simp only [Bool.not_eq_true] at hf
                    simp only [hf] at h
                    cases h
                    cases hm

/-- Any exception escaping the constant-comparison branch comes from a
`float(...)` call and carries a nonempty message. -/
lemma algebraConstCompare_error_ne (O : CAS) (hWF : CASWellFormed O)
    (a b : SExpr) (tol : ℚ) (m : String)
    (h : algebraConstCompare O a b tol = .error m) : m ≠ "" := by
  unfold algebraConstCompare at h
  cases h1 : O.toFloat a with
  | hardErr m2 =>
    simp only [h1] at h
    cases h
    exact hWF.toFloat _ _ h1
  | softErr => simp only [h1] at h; cases h
  | val x =>
    simp only [h1] at h
    cases h2 : O.toFloat b with
    | hardErr m2 =>
      simp only [h2] at h
      cases h
      exact hWF.toFloat _ _ h2
    | softErr => simp only [h2] at h; cases h
    | val y => simp only [h2] at h; cases h

/-- Any exception escaping the `try` block of `algebra_equiv` carries a
nonempty message. -/
lemma algebra_body_error_ne (O : CAS) (hWF : CASWellFormed O)
    (lhs rhs : String) (tol : ℚ) (m : String)
    (h : algebra_body O lhs rhs tol = .error m) : m ≠ "" := by
  unfold algebra_body at h
  cases h1 : _safe_parse O lhs with
  | error e =>
    simp only [h1] at h
    cases h
    exact _safe_parse_error_ne_empty _ _ _ h1
  | ok lhs_sympy =>
    simp only [h1] at h
    cases h2 : _safe_parse O rhs with
    | error e =>
      simp only [h2] at h
      cases h
      exact _safe_parse_error_ne_empty _ _ _ h2
    | ok rhs_sympy =>
      simp only [h2] at h
      cases h3 : O.simplifyE lhs_sympy with
      | error e =>
        simp only [h3] at h
        cases h
        exact hWF.simplifyE _ _ h3
      | ok lhs_simplified =>
        simp only [h3] at h
        cases h4 : O.simplifyE rhs_sympy with
        | error e =>
          simp only [h4] at h
          cases h
          exact hWF.simplifyE _ _ h4
        | ok rhs_simplified =>
          simp only [h4] at h
          cases h5 : O.isZeroSimplify lhs_simplified rhs_simplified with
          | error e =>
            simp only [h5] at h
            cases h
            exact hWF.isZeroSimplify _ _ _ h5
          | ok symbolic_equiv =>
            simp only [h5] at h
            cases symbolic_equiv with
            | true => simp only [if_pos] at h; cases h
            | false =>
              simp only [Bool.false_eq_true, if_neg] at h
              cases h6 : O.orAtoms lhs_sympy rhs_sympy with
              | error e =>
                simp only [h6] at h
                cases h
                exact hWF.orAtoms _ _ _ h6
              | ok all_symbols =>
                simp only [h6] at h
                cases h7 : (if ! all_symbols.isEmpty then
                    numericLoop
                      (fun point_dict => O.evalAt lhs_simplified point_dict)
                      (fun point_dict => O.evalAt rhs_simplified point_dict)
                      tol (O.genPointsMulti all_symbols 10)
                   else
                    algebraConstCompare O lhs_simplified rhs_simplified tol) with
                | error e =>
                  simp only [h7] at h
                  cases h
                  by_cases hs : (! all_symbols.isEmpty) = true
                  · rw [if_pos hs] at h7
                    rcases numericLoop_error _ _ _ _ _ h7 with ⟨q, hq, hc | hc⟩
                    · exact hWF.evalAt _ _ _ hc
                    · exact hWF.evalAt _ _ _ hc
                  · rw [if_neg hs] at h7
                    exact algebraConstCompare_error_ne O hWF _ _ _ _ h7
                | ok numerical_equiv =>
                  simp only [h7] at h
                  cases h

/-- A normal return of `algebra_equiv`'s `try` block never carries an
`error` entry. -/
lemma algebra_body_ok_error (O : CAS) (lhs rhs : String) (tol : ℚ)
    (r : AlgebraResult) (h : algebra_body O lhs rhs tol = .ok r) :
    r.details.error = none := by
  unfold algebra_body at h
  cases h1 : _safe_parse O lhs with
  | error e => simp only [h1] at h; cases h
  | ok lhs_sympy =>
    simp only [h1] at h
    cases h2 : _safe_parse O rhs with
    | error e => simp only [h2] at h; cases h
    | ok rhs_sympy =>
      simp only [h2] at h
      cases h3 : O.simplifyE lhs_sympy with
      | error e => simp only [h3] at h; cases h
      | ok lhs_simplified =>
        simp only [h3] at h
        cases h4 : O.simplifyE rhs_sympy with
        | error e => simp only [h4] at h; cases h
        | ok rhs_simplified =>
          simp only [h4] at h
          cases h5 : O.isZeroSimplify lhs_simplified rhs_simplified with
          | error e => simp only [h5] at h; cases h
          | ok symbolic_equiv =>
            simp only [h5] at h
            cases symbolic_equiv with
            | true =>
              simp only [if_pos] at h
              cases h
              rfl
            | false =>
              simp only [Bool.false_eq_true, if_neg] at h
              cases h6 : O.orAtoms lhs_sympy rhs_sympy with
              | error e => simp only [h6] at h; cases h
              | ok all_symbols =>
                simp only [h6] at h
                cases h7 : (if ! all_symbols.isEmpty then
                    numericLoop
                      (fun point_dict => O.evalAt lhs_simplified point_dict)
                      (fun point_dict => O.evalAt rhs_simplified point_dict)
                      tol (O.genPointsMulti all_symbols 10)
                   else
                    algebraConstCompare O lhs_simplified rhs_simplified tol) with
                | error e => simp only [h7] at h; cases h
                | ok numerical_equiv =>
                  simp only [h7] at h
                  cases h
                  rfl

/-- Any exception escaping the `try` block of `dimensional_check` carries
a nonempty message. -/
lemma dimensional_body_error_ne (O : CAS) (hWF : CASWellFormed O)
    (expr expected_unit : String) (m : String)
    (h : dimensional_body O expr expected_unit = .error m) : m ≠ "" := by
  unfold dimensional_body at h
  cases h1 : _safe_parse O expr with
  | error e =>
    simp only [h1] at h
    cases h
    exact _safe_parse_error_ne_empty _ _ _ h1
  | ok expr_sympy =>
    simp only [h1] at h
    cases h2 : O.pintParse expected_unit with
    | error e =>
      simp only [h2] at h
      cases h
      exact hWF.pintParse _ _ h2
    | ok u =>
      simp only [h2] at h
      cases h

/-- A normal return of `dimensional_check`'s `try` block never carries an
`error` entry. -/
lemma dimensional_body_ok_error (O : CAS) (expr expected_unit : String)
    (r : DimResult) (h : dimensional_body O expr expected_unit = .ok r) :
    r.details.error = none := by
  unfold dimensional_body at h
  cases h1 : _safe_parse O expr with
  | error e => simp only [h1] at h; cases h
  | ok expr_sympy =>
    simp only [h1] at h
    cases h2 : O.pintParse expected_unit with
    | error e => simp only [h2] at h; cases h
    | ok u =>
      simp only [h2] at h
      cases h
      rfl

/-- Any exception escaping the `try` block of `numeric_probe` carries a
nonempty message. -/
lemma probe_body_error_ne (O : CAS) (hWF : CASWellFormed O)
    (expr : String) (num_points : Nat) (m : String)
    (h : numeric_probe_body O expr num_points = .error m) : m ≠ "" := by
  unfold numeric_probe_body at h
  cases h1 : _safe_parse O expr with
  | error e =>
    simp only [h1] at h
    cases h
    exact _safe_parse_error_ne_empty _ _ _ h1
  | ok expr_sympy =>
    simp only [h1] at h
    by_cases hS : (SExpr.freeSymbols expr_sympy).isEmpty = true
    · rw [if_pos hS] at h
      cases h2 : O.toFloat expr_sympy with
      | hardErr m2 =>
        simp only [h2] at h
        cases h
        exact hWF.toFloat _ _ h2
      | softErr => simp only [h2] at h; cases h
      | val result => simp only [h2] at h; cases h
    · rw [if_neg hS] at h
      cases h2 : probeLoop (fun point_dict => O.evalAt expr_sympy point_dict)
          (O.genPointsMulti (SExpr.freeSymbols expr_sympy) num_points) with
      | error e =>
        simp only [h2] at h
        cases h
        rcases probeLoop_error _ _ _ h2 with ⟨q, hq, hc⟩
        exact hWF.evalAt _ _ _ hc
      | ok t =>
        rcases t with ⟨v, ec, rs⟩
        simp only [h2] at h
        cases h

/-- A normal return of `numeric_probe`'s `try` block carrying an `error`
entry is the failed-constant report: it is not `valid` and its message is
a nonempty literal. -/
lemma probe_body_ok_err (O : CAS) (expr : String) (num_points : Nat)
    (r : ProbeResult) (m : String)
    (h : numeric_probe_body O expr num_points = .ok r)
    (hm : r.details.error = some m) : r.valid = false ∧ m ≠ "" := by
  unfold numeric_probe_body at h
  cases h1 : _safe_parse O expr with
  | error e => simp only [h1] at h; cases h
  | ok expr_sympy =>
    simp only [h1] at h
    by_cases hS : (SExpr.freeSymbols expr_sympy).isEmpty = true
    · rw [if_pos hS] at h
      cases h2 : O.toFloat expr_sympy with
      | hardErr m2 => simp only [h2] at h; cases h
      | softErr =>
        simp only [h2] at h
        cases h
        cases hm
        exact ⟨rfl, by decide⟩
      | val result =>
        simp only [h2] at h
        cases h
        cases hm
    · rw [if_neg hS] at h
      cases h2 : probeLoop (fun point_dict => O.evalAt expr_sympy point_dict)
          (O.genPointsMulti (SExpr.freeSymbols expr_sympy) num_points) with
      | error e => simp only [h2] at h; cases h
      | ok t =>
        rcases t with ⟨v, ec, rs⟩
        simp only [h2] at h
        cases h
        cases hm

/-- Claim C1: for every string inputs, each of the six public engine
functions returns a well-formed result record (they are total functions of
their embedding) and never lets an exception escape; on any failure path —
a result carrying an `error` entry — the outcome boolean (`equivalent`,
resp. `valid`) is `false` and the `error` string is nonempty. -/
theorem engines_catch_all_failures (O : CAS) (hWF : CASWellFormed O) :
    (∀ expr var expected tol m,
      (derivative_equivalent O expr var expected tol).details.error = some m →
      (derivative_equivalent O expr var expected tol).equivalent = false ∧ m ≠ "") ∧
    (∀ expr var expected cf tol m,
      (integral_equivalent O expr var expected cf tol).details.error = some m →
      (integral_equivalent O expr var expected cf tol).equivalent = false ∧ m ≠ "") ∧
    (∀ expr var toV direction tol m,
      (limit_equal O expr var toV direction tol).details.error = some m →
      (limit_equal O expr var toV direction tol).equivalent = false ∧ m ≠ "") ∧
    (∀ lhs rhs tol m,
      (algebra_equiv O lhs rhs tol).details.error = some m →
      (algebra_equiv O lhs rhs tol).equivalent = false ∧ m ≠ "") ∧
    (∀ expr u m,
      (dimensional_check O expr u).details.error = some m →
      (dimensional_check O expr u).equivalent = false ∧ m ≠ "") ∧
    (∀ expr n m,
      (numeric_probe O expr n).details.error = some m →
      (numeric_probe O expr n).valid = false ∧ m ≠ "") := by
  refine ⟨?_, ?_, ?_, ?_, ?_, ?_⟩
  · intro expr var expected tol m hm
    cases hb : derivative_body O expr var expected tol with
    | ok r =>
      simp only [derivative_equivalent, hb] at hm
      rw [derivative_body_ok_error O expr var expected tol r hb] at hm
      cases hm
    | error e =>
      simp only [derivative_equivalent, hb] at hm
      cases hm
      refine ⟨?_, derivative_body_error_ne O hWF expr var expected tol _ hb⟩
      simp [derivative_equivalent, hb]
  · intro expr var expected cf tol m hm
    cases hb : integral_body O expr var expected cf tol with
    | ok r =>
      simp only [integral_equivalent, hb] at hm
      rw [integral_body_ok_error O expr var expected cf tol r hb] at hm
      cases hm
    | error e =>
      simp only [integral_equivalent, hb] at hm
      cases hm
      refine ⟨?_, integral_body_error_ne O hWF expr var expected cf tol _ hb⟩
      simp [integral_equivalent, hb]
  · intro expr var toV direction tol m hm
    cases hb : limit_body O expr var toV direction with
    | ok r =>
      simp only [limit_equal, hb] at hm ⊢
      exact limit_body_ok_err O expr var toV direction r m hb hm
    | error e =>
      simp only [limit_equal, hb] at hm
      cases hm
      refine ⟨?_, limit_body_error_ne O hWF expr var toV direction _ hb⟩
      simp [limit_equal, hb]
  · intro lhs rhs tol m hm
    cases hb : algebra_body O lhs rhs tol with
    | ok r =>
      simp only [algebra_equiv, hb] at hm
      rw [algebra_body_ok_error O lhs rhs tol r hb] at hm
      cases hm
    | error e =>
      simp only [algebra_equiv, hb] at hm
      cases hm
      refine ⟨?_, algebra_body_error_ne O hWF lhs rhs tol _ hb⟩
      simp [algebra_equiv, hb]
  · intro expr u m hm
    cases hb : dimensional_body O expr u with
    | ok r =>
      simp only [dimensional_check, hb] at hm
      rw [dimensional_body_ok_error O expr u r hb] at hm
      cases hm
    | error e =>
      simp only [dimensional_check, hb] at hm
      cases hm
      refine ⟨?_, dimensional_body_error_ne O hWF expr u _ hb⟩
      simp [dimensional_check, hb]
  · intro expr n m hm
    cases hb : numeric_probe_body O expr n with
    | ok r =>
      simp only [numeric_probe, hb] at hm ⊢
      exact probe_body_ok_err O expr n r m hb hm
    | error e =>
      simp only [numeric_probe, hb] at hm
      cases hm
      refine ⟨?_, probe_body_error_ne O hWF expr n _ hb⟩
      simp [numeric_probe, hb]

/-- A concrete degenerate CAS whose every library call raises with message
`E`: a worst-case collaborator used to witness the failure-path theorems on
the malformed inputs of the spec. -/
def OW : CAS where
  parse := fun _ => .error "E"
  mkSym := fun _ => .error "E"
  diffE := fun _ _ => .error "E"
  integrateE := fun _ _ => .error "E"
  simplifyE := fun _ => .error "E"
  isZeroSimplify := fun _ _ => .error "E"
  limitE := fun _ _ _ _ => .error "E"
  genPoints := fun _ _ _ => .error "E"
  genPointsMulti := fun _ _ => []
  evalAt := fun _ _ => .hardErr "E"
  toFloat := fun _ => .hardErr "E"
  orAtoms := fun _ _ => .error "E"
  pintParse := fun _ => .error "E"
  sstr := fun _ => ""

/-- `OW` is well-formed: all its exception messages are nonempty. -/
lemma OW_wf : CASWellFormed OW where
  mkSym := fun _ m hm => by cases hm; decide
  diffE := fun _ _ m hm => by cases hm; decide
  integrateE := fun _ _ m hm => by cases hm; decide
  simplifyE := fun _ m hm => by cases hm; decide
  isZeroSimplify := fun _ _ m hm => by cases hm; decide
  limitE := fun _ _ _ _ m hm => by cases hm; decide
  genPoints := fun _ _ _ m hm => by cases hm; decide
  evalAt := fun _ _ m hm => by cases hm; decide
  toFloat := fun _ m hm => by cases hm; decide
  orAtoms := fun _ _ m hm => by cases hm; decide
  pintParse := fun _ m hm => by cases hm; decide

/-- Witness for C1: the malformed inputs of the spec — `x^` through the
derivative engine, `sin(` through the limit engine, the empty string
through the numeric probe — all yield `equivalent=false`/`valid=false`
with the expected nonempty parse-failure messages. -/
theorem engines_catch_all_failures_witness :
    CASWellFormed OW ∧
    ((derivative_equivalent OW "x^" "x" "1" 0).equivalent = false ∧
      "Failed to parse expression \x27x^\x27: E" ≠ "") ∧
    ((limit_equal OW "sin(" "x" "0" "both" 0).equivalent = false ∧
      "Failed to parse expression \x27sin(\x27: E" ≠ "") ∧
    ((numeric_probe OW "" 5).valid = false ∧
      "Failed to parse expression \x27\x27: E" ≠ "") :=
  ⟨OW_wf,
   (engines_catch_all_failures OW OW_wf).1 "x^" "x" "1" 0
     "Failed to parse expression \x27x^\x27: E" rfl,
   (engines_catch_all_failures OW OW_wf).2.2.1 "sin(" "x" "0" "both" 0
     "Failed to parse expression \x27sin(\x27: E" rfl,
   (engines_catch_all_failures OW OW_wf).2.2.2.2.2 "" 5
     "Failed to parse expression \x27\x27: E" rfl⟩

/-- `sqrt(-1 - x^2)`, an expression that is complex-valued at every real
point, as parsed by SymPy. -/
def sqrtNegExpr : SExpr :=
  .app "sqrt" [.add [.int (-1), .mul [.int (-1), .pow (.sym "x") (.int 2)]]]

/-- Its derivative `-x/sqrt(-1 - x^2)`, also complex-valued at every real
point. -/
def sqrtNegDeriv : SExpr :=
  .mul [.int (-1), .sym "x", .pow sqrtNegExpr (.int (-1))]

/-- The unevaluated antiderivative `Integral(sqrt(-1 - x^2), x)` that
SymPy-style integration returns when it keeps the integral symbolic;
`float()` of it raises `TypeError` at every point. -/
def sqrtNegIntegral : SExpr := .app "Integral" [sqrtNegExpr, .sym "x"]

/-- The assignment drawn for a symbol by the modelled sampler of `OC`:
a fixed plausible draw per symbol name (the engines never depend on the
distribution, only on the assignments handed back). -/
def symSeed (s : String) : ℚ :=
  if s = "x" then 1 else if s = "y" then 2 else 0

/-- A concrete CAS modelling the documented SymPy/pint behavior on the
handful of inputs exercised by the witnesses and counterexamples:
`parse_expr` maps `zoo`/`oo` to the corresponding constants and applies
unknown names such as `eval` as undefined functions; `@` is a parse
failure; simplification leaves these forms unchanged; the difference of
two expressions simplifies to zero here exactly when they are equal;
`limit` of a variable-free expression (such as `zoo`) is the expression
itself, and the one-sided limits of `1/x` at `0` are `-oo` and `oo`;
`float()` of an `Integer` is its value, of `oo` is `inf`, and raises
`TypeError` on complex or unevaluated results; `Integer | Integer` is
SymPy integer bitwise-or (symbol-free), `Symbol | Symbol` builds an `Or`
whose symbol set is both names. -/
def OC : CAS where
  parse := fun s =>
    if s = "x" then .ok (.sym "x")
    else if s = "y" then .ok (.sym "y")
    else if s = "0" then .ok (.int 0)
    else if s = "1" then .ok (.int 1)
    else if s = "2" then .ok (.int 2)
    else if s = "3" then .ok (.int 3)
    else if s = "5" then .ok (.int 5)
    else if s = "zoo" then .ok .zooC
    else if s = "oo" then .ok .ooC
    else if s = "1/x" then .ok (.pow (.sym "x") (.int (-1)))
    else if s = "sqrt(-1 - x^2)" then .ok sqrtNegExpr
    else if s = "eval(\x27x\x27)" then .ok (.app "eval" [.sym "x"])
    else if s = "__import__(\x27os\x27)" then .ok (.app "__import__" [.sym "os"])
    else if s = "open(\x27f\x27)" then .ok (.app "open" [.sym "f"])
    else .error "SyntaxError: invalid syntax"
  mkSym := fun v => if v = "x" then .ok "x" else .error "no symbols given"
  diffE := fun e v =>
    if e == sqrtNegExpr && v == "x" then .ok sqrtNegDeriv
    else if e == .sym "x" && v == "x" then .ok (.int 1)
    else .error "cannot differentiate"
  integrateE := fun e v =>
    if e == sqrtNegExpr && v == "x" then .ok sqrtNegIntegral
    else .error "cannot integrate"
  simplifyE := fun e => .ok e
  isZeroSimplify := fun a b => .ok (a == b)
  limitE := fun e v t d =>
    if e == .zooC && v == "x" && t == .int 0 then .ok (some .zooC)
    else if e == .pow (.sym "x") (.int (-1)) && v == "x" && t == .int 0 then
      (match d with
       | .minus => .ok (some .ninfC)
       | .plus => .ok (some .ooC)
       | .dflt => .ok (some .ooC))
    else .error "cannot compute limit"
  genPoints := fun _ _ n => .ok ((List.range n).map (fun i => (i : ℚ)))
  genPointsMulti := fun syms n =>
    List.replicate n (syms.map (fun s => (s, symSeed s)))
  evalAt := fun e a =>
    match e with
    | .sym s =>
      (match a.lookup s with
       | some q => .val (.fin q)
       | none => .softErr)
    | _ => .softErr
  toFloat := fun e =>
    match e with
    | .int n => .val (.fin (n : ℚ))
    | .ooC => .val .inf
    | _ => .softErr
  orAtoms := fun a b =>
    match a, b with
    | .int _, .int _ => .ok []
    | .sym s, .sym t => .ok [s, t]
    | _, _ => .error "expecting bool or Boolean"
  pintParse := fun u =>
    if u = "m/s" then .ok ()
    else if u = "kg" then .ok ()
    else .error "undefined unit"
  sstr := fun e =>
    match e with
    | .sym s => s
    | .int n => toString n
    | .zooC => "zoo"
    | .ooC => "oo"
    | .ninfC => "-oo"
    | _ => "expr"

/-- Claim C2: for each of the four attack inputs, `_safe_parse` rejects —
returns an error, not a parsed expression — before any symbolic
computation is attempted.  The hypotheses pin the only behaviors the
underlying permissive parser can exhibit on these inputs: either it raises
(and the raw-text audit fires), or it parses the text as an application of
the very function named in it (and the allowlist audit fires); `x@y`
cannot parse at all, `@` not being an expression operator. -/
theorem safe_parse_rejects_attacks (O : CAS) :
    ((∀ p, O.parse "eval(\x27x\x27)" = .ok p → "eval" ∈ p.funcNames) →
      ∃ m, _safe_parse O "eval(\x27x\x27)" = .error m ∧ m ≠ "") ∧
    ((∀ p, O.parse "__import__(\x27os\x27)" = .ok p →
        "__import__" ∈ p.funcNames) →
      ∃ m, _safe_parse O "__import__(\x27os\x27)" = .error m ∧ m ≠ "") ∧
    ((∀ p, O.parse "open(\x27f\x27)" = .ok p → "open" ∈ p.funcNames) →
      ∃ m, _safe_parse O "open(\x27f\x27)" = .error m ∧ m ≠ "") ∧
    ((∀ p, O.parse "x@y" = .ok p → False) →
      ∃ m, _safe_parse O "x@y" = .error m ∧ m ≠ "") := by
  refine ⟨?_, ?_, ?_, ?_⟩
  · intro hyp
    cases hp : O.parse "eval(\x27x\x27)" with
    | error e =>
      refine ⟨classifyParseError "eval(\x27x\x27)" e, ?_,
        classifyParseError_ne_empty _ _⟩
      unfold _safe_parse
      rw [hp]
    | ok p =>
      have hmem := hyp p hp
      have hsome : (findUnsafeFunc p).isSome := by
        unfold findUnsafeFunc
        rw [List.find?_isSome]
        exact ⟨"eval", hmem, by decide⟩
      rcases Option.isSome_iff_exists.mp hsome with ⟨f, hf⟩
      refine ⟨classifyParseError "eval(\x27x\x27)"
          ("Unsafe function \x27" ++ f ++ "\x27 not in allowlist"),
        ?_, classifyParseError_ne_empty _ _⟩
      simp only [_safe_parse, hp, hf]
  · intro hyp
    cases hp : O.parse "__import__(\x27os\x27)" with
    | error e =>
      refine ⟨classifyParseError "__import__(\x27os\x27)" e, ?_,
        classifyParseError_ne_empty _ _⟩
      unfold _safe_parse
      rw [hp]
    | ok p =>
      have hmem := hyp p hp
      have hsome : (findUnsafeFunc p).isSome := by
        unfold findUnsafeFunc
        rw [List.find?_isSome]
        exact ⟨"__import__", hmem, by decide⟩
      rcases Option.isSome_iff_exists.mp hsome with ⟨f, hf⟩
      refine ⟨classifyParseError "__import__(\x27os\x27)"
          ("Unsafe function \x27" ++ f ++ "\x27 not in allowlist"),
        ?_, classifyParseError_ne_empty _ _⟩
      simp only [_safe_parse, hp, hf]
  · intro hyp
    cases hp : O.parse "open(\x27f\x27)" with
    | error e =>
      refine ⟨classifyParseError "open(\x27f\x27)" e, ?_,
        classifyParseError_ne_empty _ _⟩
      unfold _safe_parse
      rw [hp]
    | ok p =>
      have hmem := hyp p hp
      have hsome : (findUnsafeFunc p).isSome := by
        unfold findUnsafeFunc
        rw [List.find?_isSome]
        exact ⟨"open", hmem, by decide⟩
      rcases Option.isSome_iff_exists.mp hsome with ⟨f, hf⟩
      refine ⟨classifyParseError "open(\x27f\x27)"
          ("Unsafe function \x27" ++ f ++ "\x27 not in allowlist"),
        ?_, classifyParseError_ne_empty _ _⟩
      simp only [_safe_parse, hp, hf]
  · intro hyp
    cases hp : O.parse "x@y" with
    | error e =>
      refine ⟨classifyParseError "x@y" e, ?_,
        classifyParseError_ne_empty _ _⟩
      unfold _safe_parse
      rw [hp]
    | ok p => exact (hyp p hp).elim

/-- Witness for C2 at the concrete oracle `OC`, whose parser applies the
attack names as undefined functions (and fails on `x@y`): all four inputs
are rejected. -/
theorem safe_parse_rejects_attacks_witness :
    ((∀ p, OC.parse "eval(\x27x\x27)" = .ok p → "eval" ∈ p.funcNames) ∧
     (∀ p, OC.parse "x@y" = .ok p → False)) ∧
    ((∃ m, _safe_parse OC "eval(\x27x\x27)" = .error m ∧ m ≠ "") ∧
     (∃ m, _safe_parse OC "__import__(\x27os\x27)" = .error m ∧ m ≠ "") ∧
     (∃ m, _safe_parse OC "open(\x27f\x27)" = .error m ∧ m ≠ "") ∧
     (∃ m, _safe_parse OC "x@y" = .error m ∧ m ≠ "")) :=
  ⟨⟨fun p hp => by cases hp; decide, fun p hp => by cases hp⟩,
   (safe_parse_rejects_attacks OC).1 (fun p hp => by cases hp; decide),
   (safe_parse_rejects_attacks OC).2.1 (fun p hp => by cases hp; decide),
   (safe_parse_rejects_attacks OC).2.2.1 (fun p hp => by cases hp; decide),
   (safe_parse_rejects_attacks OC).2.2.2 (fun p hp => by cases hp)⟩

/-- Claim C6: the integral engine's constant stripping.  For a sum, the
result is the sum (`sp.Add`) of exactly the summands whose free-variable
set contains the variable, and the additive identity when none does; for a
non-sum, the expression itself when it contains the variable and the
additive identity otherwise. -/
theorem remove_constants_spec :
    (∀ (args : List SExpr) (v : String),
      (args.filter (fun term => v ∈ term.freeSymbols) = [] →
        _remove_constants (.add args) v = .int 0) ∧
      (∀ kept, kept = args.filter (fun term => v ∈ term.freeSymbols) →
        kept ≠ [] → _remove_constants (.add args) v = mkAdd kept)) ∧
    (∀ (e : SExpr) (v : String), e.isAdd = false →
      (v ∈ e.freeSymbols → _remove_constants e v = e) ∧
      (v ∉ e.freeSymbols → _remove_constants e v = .int 0)) := by
  constructor
  · intro args v
    constructor
    · intro hnil
      simp [_remove_constants, hnil]
    · intro kept hk hne
      subst hk
      simp only [_remove_constants]
      rw [if_neg]
      simp only [List.isEmpty_eq_true]
      exact hne
  · intro e v hA
    constructor
    · intro hmem
      cases e <;> simp [SExpr.isAdd] at hA <;> simp [_remove_constants, hmem]
    · intro hmem
      cases e <;> simp [SExpr.isAdd] at hA <;> simp [_remove_constants, hmem]

/-- Witness for C6: stripping `x + 3` with respect to `x` keeps exactly
`x`; a non-sum constant is replaced by `0`; a sum with no term in `x`
collapses to `0`. -/
theorem remove_constants_spec_witness :
    _remove_constants (.add [.sym "x", .int 3]) "x" = .sym "x" ∧
    _remove_constants (.add [.int 2, .int 3]) "x" = .int 0 ∧
    _remove_constants (.int 5) "x" = .int 0 := by
  refine ⟨?_, ?_, ?_⟩
  · exact (remove_constants_spec.1 [.sym "x", .int 3] "x").2 [.sym "x"] rfl
      (by simp)
  · exact (remove_constants_spec.1 [.int 2, .int 3] "x").1 rfl
  · exact ((remove_constants_spec.2 (.int 5) "x") rfl).2 (by simp [SExpr.freeSymbols])

/-- Claim C9: for every successfully parsed expression and every pair of
registry-accepted expected units, the dimensional check's verdict equals
`has_units` — the presence of one of the thirteen fixed SI tokens as a
substring of the stringified parsed expression — and does not depend on
the expected unit. -/
theorem dimensional_check_substring_verdict (O : CAS) :
    ∀ expr u1 u2 pe,
      _safe_parse O expr = .ok pe →
      O.pintParse u1 = .ok () →
      O.pintParse u2 = .ok () →
      (dimensional_check O expr u1).equivalent = hasUnits (O.sstr pe) ∧
      (dimensional_check O expr u1).details.has_units =
        some (hasUnits (O.sstr pe)) ∧
      (dimensional_check O expr u1).equivalent =
        (dimensional_check O expr u2).equivalent := by
  intro expr u1 u2 pe hp h1 h2
  have hbody : ∀ u, O.pintParse u = .ok () →
      dimensional_check O expr u =
        { equivalent := hasUnits (O.sstr pe),
          details := { expression := some (O.sstr pe),
                       expected_unit := some u,
                       has_units := some (hasUnits (O.sstr pe)),
                       note := some "Simplified unit checking - full implementation would require proper unit analysis" } } := by
    intro u hu
    unfold dimensional_check dimensional_body
    rw [hp, hu]
  rw [hbody u1 h1, hbody u2 h2]
  exact ⟨rfl, rfl, rfl⟩

/-- Witness for C9: with the concrete oracle, `x` parses, prints as `x`,
contains no unit token, and the verdict is `false` under both accepted
units `m/s` and `kg`. -/
theorem dimensional_check_substring_verdict_witness :
    (dimensional_check OC "x" "m/s").equivalent = hasUnits (OC.sstr (.sym "x")) ∧
    (dimensional_check OC "x" "m/s").details.has_units = some false ∧
    (dimensional_check OC "x" "m/s").equivalent =
      (dimensional_check OC "x" "kg").equivalent := by
  have h := dimensional_check_substring_verdict OC "x" "m/s" "kg" (.sym "x")
    rfl rfl rfl
  exact ⟨h.1, by rw [h.2.1]; rfl, h.2.2⟩

/-- Claim C5: for direction `both`, `limit_equal` separately evaluates the
left- and right-sided limits and, whenever those differ, returns
`equivalent=false` with `limit_exists=false`, regardless of what the
bidirectional limit computation returned. -/
theorem limit_both_crosscheck (O : CAS) :
    ∀ expr var toV tol pe vs pt cl ll rr,
      _safe_parse O expr = .ok pe →
      O.mkSym var = .ok vs →
      _safe_parse O toV = .ok pt →
      O.limitE pe vs pt .dflt = .ok cl →
      O.limitE pe vs pt .minus = .ok ll →
      O.limitE pe vs pt .plus = .ok rr →
      (ll == rr) = false →
      (limit_equal O expr var toV "both" tol).equivalent = false ∧
      (limit_equal O expr var toV "both" tol).details.limit_exists =
        some false := by
  intro expr var toV tol pe vs pt cl ll rr hp hv ht hdflt hminus hplus hne
  have hdir : limDirOf "both" = LimDir.dflt := rfl
  simp only [limit_equal, limit_body, hp, hv, ht, hdir, hdflt]
  cases cl with
  | none => exact ⟨rfl, rfl⟩
  | some l =>
    simp only []
    by_cases hn : (l == SExpr.nanC) = true
    · rw [if_pos hn]
      exact ⟨rfl, rfl⟩
    · rw [if_neg hn]
      have hagree : limitBothAgree O pe vs pt = Except.ok false := by
        simp only [limitBothAgree, hminus, hplus, hne]
      rw [hagree]
      exact ⟨rfl, rfl⟩

/-- Witness for C5: `limit_equal("1/x", "x", "0", "both")` at the concrete
oracle (left limit `-oo`, right limit `oo`, bidirectional primitive `oo`)
is not equivalent and reports a non-existent limit. -/
theorem limit_both_crosscheck_witness :
    (limit_equal OC "1/x" "x" "0" "both" 0).equivalent = false ∧
    (limit_equal OC "1/x" "x" "0" "both" 0).details.limit_exists =
      some false :=
  limit_both_crosscheck OC "1/x" "x" "0" 0
    (.pow (.sym "x") (.int (-1))) "x" (.int 0)
    (some .ooC) (some .ninfC) (some .ooC)
    rfl rfl rfl rfl rfl rfl rfl

/-- Counterexample for C4: the code checks the computed limit only against
`nan`, `oo` and `-oo`; complex infinity (`zoo`) slips through.  At the
concrete oracle — where, as in SymPy, `zoo` parses to ComplexInfinity and
the limit of the variable-free expression `zoo` is `zoo` itself — the
right-sided limit request returns `equivalent=true` with `finite=true`
even though the computed limit is `zoo`, contradicting the claim that
every non-finite limit yields `equivalent=false`. -/
theorem limit_zoo_counterexample :
    OC.limitE .zooC "x" (.int 0) .plus = .ok (some .zooC) ∧
    (limit_equal OC "zoo" "x" "0" "right" 0).equivalent = true ∧
    (limit_equal OC "zoo" "x" "0" "right" 0).details.finite = some true ∧
    (limit_equal OC "zoo" "x" "0" "right" 0).details.computed = some "zoo" :=
  ⟨rfl, rfl, rfl, rfl⟩

/-- Claim C4 as amended: `limit_equal` returns `equivalent=true` only when
the computed limit exists and is none of `nan`, `+oo`, `-oo` — complex
infinity (`zoo`) is not excluded: whenever the computed limit is a value
other than those three (for direction `right`, where no cross-check runs),
the engine reports `equivalent=true` and `finite=true`, and this includes
`zoo`. -/
theorem limit_nonfinite_amended (O : CAS) :
    (∀ expr var toV direction tol pe vs pt cl,
      _safe_parse O expr = .ok pe →
      O.mkSym var = .ok vs →
      _safe_parse O toV = .ok pt →
      O.limitE pe vs pt (limDirOf direction) = .ok cl →
      (cl = none ∨ cl = some .nanC ∨ cl = some .ooC ∨ cl = some .ninfC) →
      (limit_equal O expr var toV direction tol).equivalent = false) ∧
    (∀ expr var toV tol pe vs pt l,
      _safe_parse O expr = .ok pe →
      O.mkSym var = .ok vs →
      _safe_parse O toV = .ok pt →
      O.limitE pe vs pt .plus = .ok (some l) →
      (l == SExpr.nanC) = false →
      (l == SExpr.ooC) = false →
      (l == SExpr.ninfC) = false →
      (limit_equal O expr var toV "right" tol).equivalent = true ∧
      (limit_equal O expr var toV "right" tol).details.finite = some true) := by
  constructor
  · intro expr var toV direction tol pe vs pt cl hp hv ht hlim hcl
    simp only [limit_equal, limit_body, hp, hv, ht, hlim]
    rcases hcl with rfl | rfl | rfl | rfl
    · rfl
    · rfl
    · cases hB : (if direction = "both"
          then limitBothAgree O pe vs pt
          else Except.ok true) with
      | error e => simp only [hB]; rfl
      | ok sidesAgree =>
        simp only [hB]
        cases sidesAgree with
        | false => rfl
        | true => rfl
    · cases hB : (if direction = "both"
          then limitBothAgree O pe vs pt
          else Except.ok true) with
      | error e => simp only [hB]; rfl
      | ok sidesAgree =>
        simp only [hB]
        cases sidesAgree with
        | false => rfl
        | true => rfl
  · intro expr var toV tol pe vs pt l hp hv ht hlim hnan hoo hninf
    have hdir : limDirOf "right" = LimDir.plus := rfl
    simp only [limit_equal, limit_body, hp, hv, ht, hdir, hlim]
    simp only [hnan, hoo, hninf]
    exact ⟨rfl, rfl⟩

/-- Witness for the amended C4: at the concrete oracle, `1/x` from the
right (limit `oo`) yields `equivalent=false`, while `zoo` from the right
(limit `zoo`) yields `equivalent=true` with `finite=true`. -/
theorem limit_nonfinite_amended_witness :
    (limit_equal OC "1/x" "x" "0" "right" 0).equivalent = false ∧
    (limit_equal OC "zoo" "x" "0" "right" 0).equivalent = true ∧
    (limit_equal OC "zoo" "x" "0" "right" 0).details.finite = some true :=
  ⟨(limit_nonfinite_amended OC).1 "1/x" "x" "0" "right" 0
      (.pow (.sym "x") (.int (-1))) "x" (.int 0) (some .ooC)
      rfl rfl rfl rfl (Or.inr (Or.inr (Or.inl rfl))),
   (limit_nonfinite_amended OC).2 "zoo" "x" "0" 0
      .zooC "x" (.int 0) .zooC rfl rfl rfl rfl rfl rfl rfl⟩

/-- Counterexample for C8: the constant branch of `numeric_probe` performs
no finiteness check.  At the concrete oracle — where, as in SymPy/CPython,
`oo` parses to Infinity, has no symbols, and `float(oo)` returns `inf`
without raising — `numeric_probe("oo")` reports `valid=true` with the
non-finite constant value `inf`, contradicting the claim that a constant
expression is valid only when it evaluates to a finite real. -/
theorem numeric_probe_inf_counterexample :
    OC.toFloat .ooC = .val .inf ∧
    FloatVal.isFinite .inf = false ∧
    (numeric_probe OC "oo" 5).valid = true ∧
    (numeric_probe OC "oo" 5).details.constant_value = some .inf :=
  ⟨rfl, rfl, rfl, rfl⟩

/-- Claim C8 as amended: for a constant expression (no free symbols),
`numeric_probe` returns `valid=true` iff the `float(...)` conversion
returns — including non-finite values such as `inf` — with the converted
value as `constant_value` and `points_tested = 0`; it returns
`valid=false` when the conversion raises `ValueError`/`TypeError`.  In
particular `numeric_probe("5")` yields `valid=true`,
`constant_value == 5.0`, `points_tested == 0`. -/
theorem numeric_probe_constant_amended (O : CAS) :
    ∀ expr n pe,
      _safe_parse O expr = .ok pe →
      pe.freeSymbols = [] →
      (∀ fv, O.toFloat pe = .val fv →
        (numeric_probe O expr n).valid = true ∧
        (numeric_probe O expr n).details.constant_value = some fv ∧
        (numeric_probe O expr n).details.points_tested = some 0) ∧
      (O.toFloat pe = .softErr →
        (numeric_probe O expr n).valid = false ∧
        (numeric_probe O expr n).details.error =
          some "Failed to evaluate constant expression") := by
  intro expr n pe hp hsym
  have hempty : pe.freeSymbols.isEmpty = true := by
    rw [hsym]
    rfl
  constructor
  · intro fv hf
    simp only [numeric_probe, numeric_probe_body, hp, hempty, if_true, hf]
    refine ⟨?_, ?_, ?_⟩ <;> trivial
  · intro hf
    simp only [numeric_probe, numeric_probe_body, hp, hempty, if_true, hf]
    refine ⟨?_, ?_⟩ <;> trivial

/-- Witness for the amended C8: `numeric_probe("5")` at the concrete
oracle is valid with constant value `5.0` and zero points tested. -/
theorem numeric_probe_constant_amended_witness :
    (numeric_probe OC "5" 3).valid = true ∧
    (numeric_probe OC "5" 3).details.constant_value = some (.fin 5) ∧
    (numeric_probe OC "5" 3).details.points_tested = some 0 :=
  (numeric_probe_constant_amended OC "5" 3 (.int 5) rfl rfl).1 (.fin 5) rfl

/-- Claim C7: in `algebra_equiv`, when the symbolic test is inconclusive
and the symbol set gathered from the `Or` of the two operands is empty,
the fallback compares the two simplified constants directly via
`float(...)`: `equivalent=true` iff their difference is within tolerance,
and `false` when either conversion raises `ValueError`/`TypeError` — no
test points are sampled. -/
theorem algebra_constant_fallback (O : CAS) :
    ∀ lhs rhs tol pl pr ls rs,
      _safe_parse O lhs = .ok pl →
      _safe_parse O rhs = .ok pr →
      O.simplifyE pl = .ok ls →
      O.simplifyE pr = .ok rs →
      O.isZeroSimplify ls rs = .ok false →
      O.orAtoms pl pr = .ok [] →
      (∀ a b, O.toFloat ls = .val a → O.toFloat rs = .val b →
        (algebra_equiv O lhs rhs tol).equivalent = floatAbsDiffLe a b tol ∧
        (algebra_equiv O lhs rhs tol).details.numerical_match =
          some (floatAbsDiffLe a b tol)) ∧
      (O.toFloat ls = .softErr →
        (algebra_equiv O lhs rhs tol).equivalent = false) ∧
      (∀ a, O.toFloat ls = .val a → O.toFloat rs = .softErr →
        (algebra_equiv O lhs rhs tol).equivalent = false) := by
  intro lhs rhs tol pl pr ls rs hpl hpr hsl hsr hz ha
  refine ⟨?_, ?_, ?_⟩
  · intro a b hfa hfb
    simp only [algebra_equiv, algebra_body, hpl, hpr, hsl, hsr, hz, ha,
      Bool.false_eq_true, if_neg, List.isEmpty_nil, Bool.not_true,
      algebraConstCompare, hfa, hfb]
    exact ⟨rfl, rfl⟩
  · intro hfa
    simp only [algebra_equiv, algebra_body, hpl, hpr, hsl, hsr, hz, ha,
      Bool.false_eq_true, if_neg, List.isEmpty_nil, Bool.not_true,
      algebraConstCompare, hfa]
    rfl
  · intro a hfa hfb
    simp only [algebra_equiv, algebra_body, hpl, hpr, hsl, hsr, hz, ha,
      Bool.false_eq_true, if_neg, List.isEmpty_nil, Bool.not_true,
      algebraConstCompare, hfa, hfb]
    rfl

/-- Witness for C7: at the concrete oracle (`Integer | Integer` is SymPy
bitwise-or, symbol-free), `algebra_equiv("2", "3")` compares `2.0` and
`3.0` directly: not equivalent at tolerance `0`, equivalent at tolerance
`5`. -/
theorem algebra_constant_fallback_witness :
    (algebra_equiv OC "2" "3" 0).equivalent = false ∧
    (algebra_equiv OC "2" "3" 5).equivalent = true := by
  have h0 := (algebra_constant_fallback OC "2" "3" 0 (.int 2) (.int 3)
    (.int 2) (.int 3) rfl rfl rfl rfl rfl rfl).1 (.fin 2) (.fin 3) rfl rfl
  have h5 := (algebra_constant_fallback OC "2" "3" 5 (.int 2) (.int 3)
    (.int 2) (.int 3) rfl rfl rfl rfl rfl rfl).1 (.fin 2) (.fin 3) rfl rfl
  refine ⟨?_, ?_⟩
  · rw [h0.1]
    simp only [floatAbsDiffLe, FloatVal.sub, FloatVal.fabs, FloatVal.leTol,
      decide_eq_false_iff_not]
    norm_num
  · rw [h5.1]
    simp only [floatAbsDiffLe, FloatVal.sub, FloatVal.fabs, FloatVal.leTol,
      decide_eq_true_eq]
    norm_num

/-- A normal return of `derivative_equivalent`'s `try` block is either the
symbolic-match record (all three flags true) or a fallback record whose
verdict equals its numerical flag, with `symbolic_match=False`. -/
lemma derivative_body_ok_shape (O : CAS) (expr var expected : String)
    (tol : ℚ) (r : DerivResult)
    (h : derivative_body O expr var expected tol = .ok r) :
    (r.equivalent = true ∧ r.details.symbolic_match = some true ∧
      r.details.numerical_match = some true) ∨
    (∃ b, r.equivalent = b ∧ r.details.symbolic_match = some false ∧
      r.details.numerical_match = some b) := by
  unfold derivative_body at h
  cases h1 : _safe_parse O expr with
  | error e => simp only [h1] at h; cases h
  | ok expr_sympy =>
    simp only [h1] at h
    cases h2 : _safe_parse O expected with
    | error e => simp only [h2] at h; cases h
    | ok expected_sympy =>
      simp only [h2] at h
      cases h3 : O.mkSym var with
      | error e => simp only [h3] at h; cases h
      | ok var_sympy =>
        simp only [h3] at h
        cases h4 : O.diffE expr_sympy var_sympy with
        | error e => simp only [h4] at h; cases h
        | ok computed_derivative =>
          simp only [h4] at h
          cases h5 : O.simplifyE computed_derivative with
          | error e => simp only [h5] at h; cases h
          | ok computed_simplified =>
            simp only [h5] at h
            cases h6 : O.simplifyE expected_sympy with
            | error e => simp only [h6] at h; cases h
            | ok expected_simplified =>
              simp only [h6] at h
              cases h7 : O.isZeroSimplify computed_simplified expected_simplified with
              | error e => simp only [h7] at h; cases h
              | ok symbolic_equiv =>
                simp only [h7] at h
                cases symbolic_equiv with
                | true =>
                  simp only [if_pos] at h
                  cases h
                  exact Or.inl ⟨rfl, rfl, rfl⟩
                | false =>
                  simp only [Bool.false_eq_true, if_neg] at h
                  cases h8 : O.genPoints expr_sympy var_sympy 10 with
                  | error e => simp only [h8] at h; cases h
                  | ok test_points =>
                    simp only [h8] at h
                    cases h9 : numericLoop
                        (fun p => O.evalAt computed_simplified [(var_sympy, p)])
                        (fun p => O.evalAt expected_simplified [(var_sympy, p)])
                        tol test_points with
                    | error e => simp only [h9] at h; cases h
                    | ok numerical_equiv =>
                      simp only [h9] at h
                      cases h
                      exact Or.inr ⟨numerical_equiv, rfl, rfl, rfl⟩

/-- A normal return of `integral_equivalent`'s `try` block is either the
symbolic-match record or a fallback record whose verdict equals its
numerical flag. -/
lemma integral_body_ok_shape (O : CAS) (expr var expected : String)
    (cf : Bool) (tol : ℚ) (r : IntegralResult)
    (h : integral_body O expr var expected cf tol = .ok r) :
    (r.equivalent = true ∧ r.details.symbolic_match = some true ∧
      r.details.numerical_match = some true) ∨
    (∃ b, r.equivalent = b ∧ r.details.symbolic_match = some false ∧
      r.details.numerical_match = some b) := by
  unfold integral_body at h
  cases h1 : _safe_parse O expr with
  | error e => simp only [h1] at h; cases h
  | ok expr_sympy =>
    simp only [h1] at h
    cases h2 : _safe_parse O expected with
    | error e => simp only [h2] at h; cases h
    | ok expected_sympy =>
      simp only [h2] at h
      cases h3 : O.mkSym var with
      | error e => simp only [h3] at h; cases h
      | ok var_sympy =>
        simp only [h3] at h
        cases h4 : O.integrateE expr_sympy var_sympy with
        | error e => simp only [h4] at h; cases h
        | ok computed_integral =>
          simp only [h4] at h
          cases h5 : O.simplifyE
              (if cf = true then _remove_constants computed_integral var_sympy
               else computed_integral) with
          | error e => simp only [h5] at h; cases h
          | ok computed_simplified =>
            simp only [h5] at h
            cases h6 : O.simplifyE
                (if cf = true then _remove_constants expected_sympy var_sympy
                 else expected_sympy) with
            | error e => simp only [h6] at h; cases h
            | ok expected_simplified =>
              simp only [h6] at h
              cases h7 : O.isZeroSimplify computed_simplified expected_simplified with
              | error e => simp only [h7] at h; cases h
              | ok symbolic_equiv =>
                simp only [h7] at h
                cases symbolic_equiv with
                | true =>
                  simp only [if_pos] at h
                  cases h
                  exact Or.inl ⟨rfl, rfl, rfl⟩
                | false =>
                  simp only [Bool.false_eq_true, if_neg] at h
                  cases h8 : O.genPoints expr_sympy var_sympy 10 with
                  | error e => simp only [h8] at h; cases h
                  | ok test_points =>
                    simp only [h8] at h
                    cases h9 : numericLoop
                        (fun p => O.evalAt computed_simplified [(var_sympy, p)])
                        (fun p => O.evalAt expected_simplified [(var_sympy, p)])
                        tol test_points with
                    | error e => simp only [h9] at h; cases h
                    | ok numerical_equiv =>
                      simp only [h9] at h
                      cases h
                      exact Or.inr ⟨numerical_equiv, rfl, rfl, rfl⟩

/-- A normal return of `algebra_equiv`'s `try` block is either the
symbolic-match record or a fallback record whose verdict equals its
numerical flag. -/
lemma algebra_body_ok_shape (O : CAS) (lhs rhs : String) (tol : ℚ)
    (r : AlgebraResult) (h : algebra_body O lhs rhs tol = .ok r) :
    (r.equivalent = true ∧ r.details.symbolic_match = some true ∧
      r.details.numerical_match = some true) ∨
    (∃ b, r.equivalent = b ∧ r.details.symbolic_match = some false ∧
      r.details.numerical_match = some b) := by
  unfold algebra_body at h
  cases h1 : _safe_parse O lhs with
  | error e => simp only [h1] at h; cases h
  | ok lhs_sympy =>
    simp only [h1] at h
    cases h2 : _safe_parse O rhs with
    | error e => simp only [h2] at h; cases h
    | ok rhs_sympy =>
      simp only [h2] at h
      cases h3 : O.simplifyE lhs_sympy with
      | error e => simp only [h3] at h; cases h
      | ok lhs_simplified =>
        simp only [h3] at h
        cases h4 : O.simplifyE rhs_sympy with
        | error e => simp only [h4] at h; cases h
        | ok rhs_simplified =>
          simp only [h4] at h
          cases h5 : O.isZeroSimplify lhs_simplified rhs_simplified with
          | error e => simp only [h5] at h; cases h
          | ok symbolic_equiv =>
            simp only [h5] at h
            cases symbolic_equiv with
            | true =>
              simp only [if_pos] at h
              cases h
              exact Or.inl ⟨rfl, rfl, rfl⟩
            | false =>
              simp only [Bool.false_eq_true, if_neg] at h
              cases h6 : O.orAtoms lhs_sympy rhs_sympy with
              | error e => simp only [h6] at h; cases h
              | ok all_symbols =>
                simp only [h6] at h
                cases h7 : (if ! all_symbols.isEmpty then
                    numericLoop
                      (fun point_dict => O.evalAt lhs_simplified point_dict)
                      (fun point_dict => O.evalAt rhs_simplified point_dict)
                      tol (O.genPointsMulti all_symbols 10)
                   else
                    algebraConstCompare O lhs_simplified rhs_simplified tol) with
                | error e => simp only [h7] at h; cases h
                | ok numerical_equiv =>
                  simp only [h7] at h
                  cases h
                  exact Or.inr ⟨numerical_equiv, rfl, rfl, rfl⟩

/-- Converts the two normal result shapes of a comparison engine into the
C10 invariant on its three reported fields. -/
lemma shape_to_c10 (eqv : Bool) (sm nm : Option Bool)
    (h : (eqv = true ∧ sm = some true ∧ nm = some true) ∨
         (∃ b, eqv = b ∧ sm = some false ∧ nm = some b)) :
    ((eqv = true) ↔ (sm = some true ∨ nm = some true)) ∧
    (sm = some true → nm = some true ∧ eqv = true) := by
  rcases h with ⟨he, hs, hn⟩ | ⟨b, he, hs, hn⟩
  · exact ⟨⟨fun _ => Or.inl hs, fun _ => he⟩, fun _ => ⟨hn, he⟩⟩
  · subst he
    constructor
    · constructor
      · intro ht
        rw [ht] at hn
        exact Or.inr hn
      · intro hor
        rcases hor with hsm | hnm
        · rw [hs] at hsm
          simp at hsm
        · rw [hn] at hnm
          exact Option.some.inj hnm
    · intro hsm
      rw [hs] at hsm
      simp at hsm

/-- Claim C10: whenever the derivative, integral, or algebra engine
returns without an error, its verdict is exactly the disjunction of the
reported symbolic and numerical match flags; in particular a symbolic
match always reports a numerical match and a `true` verdict. -/
theorem equivalent_eq_symbolic_or_numeric (O : CAS) :
    (∀ expr var expected tol,
      (derivative_equivalent O expr var expected tol).details.error = none →
      (((derivative_equivalent O expr var expected tol).equivalent = true) ↔
        ((derivative_equivalent O expr var expected tol).details.symbolic_match = some true ∨
         (derivative_equivalent O expr var expected tol).details.numerical_match = some true)) ∧
      ((derivative_equivalent O expr var expected tol).details.symbolic_match = some true →
        (derivative_equivalent O expr var expected tol).details.numerical_match = some true ∧
        (derivative_equivalent O expr var expected tol).equivalent = true)) ∧
    (∀ expr var expected cf tol,
      (integral_equivalent O expr var expected cf tol).details.error = none →
      (((integral_equivalent O expr var expected cf tol).equivalent = true) ↔
        ((integral_equivalent O expr var expected cf tol).details.symbolic_match = some true ∨
         (integral_equivalent O expr var expected cf tol).details.numerical_match = some true)) ∧
      ((integral_equivalent O expr var expected cf tol).details.symbolic_match = some true →
        (integral_equivalent O expr var expected cf tol).details.numerical_match = some true ∧
        (integral_equivalent O expr var expected cf tol).equivalent = true)) ∧
    (∀ lhs rhs tol,
      (algebra_equiv O lhs rhs tol).details.error = none →
      (((algebra_equiv O lhs rhs tol).equivalent = true) ↔
        ((algebra_equiv O lhs rhs tol).details.symbolic_match = some true ∨
         (algebra_equiv O lhs rhs tol).details.numerical_match = some true)) ∧
      ((algebra_equiv O lhs rhs tol).details.symbolic_match = some true →
        (algebra_equiv O lhs rhs tol).details.numerical_match = some true ∧
        (algebra_equiv O lhs rhs tol).equivalent = true)) := by
  refine ⟨?_, ?_, ?_⟩
  · intro expr var expected tol hErr
    cases hb : derivative_body O expr var expected tol with
    | error e => exact absurd hErr (by simp [derivative_equivalent, hb])
    | ok r =>
      simp only [derivative_equivalent, hb]
      exact shape_to_c10 _ _ _
        (derivative_body_ok_shape O expr var expected tol r hb)
  · intro expr var expected cf tol hErr
    cases hb : integral_body O expr var expected cf tol with
    | error e => exact absurd hErr (by simp [integral_equivalent, hb])
    | ok r =>
      simp only [integral_equivalent, hb]
      exact shape_to_c10 _ _ _
        (integral_body_ok_shape O expr var expected cf tol r hb)
  · intro lhs rhs tol hErr
    cases hb : algebra_body O lhs rhs tol with
    | error e => exact absurd hErr (by simp [algebra_equiv, hb])
    | ok r =>
      simp only [algebra_equiv, hb]
      exact shape_to_c10 _ _ _ (algebra_body_ok_shape O lhs rhs tol r hb)

/-- At the concrete oracle, the multi-symbol fallback loop for the
operands `x` and `y` detects the mismatch at the very first sampled
assignment (`x = 1`, `y = 2`) and stops with `numerical_equiv = False`. -/
lemma OC_xy_loop :
    numericLoop (fun a => OC.evalAt (.sym "x") a)
      (fun a => OC.evalAt (.sym "y") a) 0
      (OC.genPointsMulti ["x", "y"] 10) = .ok false := by
  have hgt : floatAbsDiffGt (.fin (symSeed "x")) (.fin (symSeed "y")) 0 = true := by
    rw [show symSeed "x" = 1 from rfl, show symSeed "y" = 2 from rfl]
    simp only [floatAbsDiffGt, FloatVal.sub, FloatVal.fabs, FloatVal.gtTol,
      decide_eq_true_eq]
    norm_num
  rw [show OC.genPointsMulti ["x", "y"] 10 =
      [("x", symSeed "x"), ("y", symSeed "y")] ::
        List.replicate 9 [("x", symSeed "x"), ("y", symSeed "y")] from rfl]
  have he1 : OC.evalAt (.sym "x") [("x", symSeed "x"), ("y", symSeed "y")] =
      .val (.fin (symSeed "x")) := rfl
  have he2 : OC.evalAt (.sym "y") [("x", symSeed "x"), ("y", symSeed "y")] =
      .val (.fin (symSeed "y")) := rfl
  simp [numericLoop, he1, he2, hgt]

/-- Full evaluation of `algebra_equiv("x", "y")` at the concrete oracle:
the symbolic test fails, the sampled fallback detects the mismatch, and
the verdict is `false` with no error. -/
lemma algebra_xy :
    algebra_equiv OC "x" "y" 0 =
      { equivalent := false,
        details := { lhs := some "x", rhs := some "y",
                     symbolic_match := some false,
                     numerical_match := some false } } := by
  have hp1 : _safe_parse OC "x" = .ok (.sym "x") := rfl
  have hp2 : _safe_parse OC "y" = .ok (.sym "y") := rfl
  have hs1 : OC.simplifyE (.sym "x") = .ok (.sym "x") := rfl
  have hs2 : OC.simplifyE (.sym "y") = .ok (.sym "y") := rfl
  have hz : OC.isZeroSimplify (.sym "x") (.sym "y") = .ok false := rfl
  have ha : OC.orAtoms (.sym "x") (.sym "y") = .ok ["x", "y"] := rfl
  simp only [algebra_equiv, algebra_body, hp1, hp2, hs1, hs2, hz, ha]
  simp only [List.isEmpty_cons, Bool.not_false, if_true, OC_xy_loop]
  rfl

/-- Witness for C10: at the concrete oracle, the derivative of `x` against
expectation `1` matches symbolically (all flags true), and
`algebra_equiv("x", "y")` falls back numerically with verdict equal to the
numerical flag (both false). -/
theorem equivalent_eq_symbolic_or_numeric_witness :
    ((derivative_equivalent OC "x" "x" "1" 0).details.error = none ∧
     (derivative_equivalent OC "x" "x" "1" 0).details.numerical_match = some true ∧
     (derivative_equivalent OC "x" "x" "1" 0).equivalent = true) ∧
    ((algebra_equiv OC "x" "y" 0).details.error = none ∧
     ((algebra_equiv OC "x" "y" 0).equivalent = true ↔
       ((algebra_equiv OC "x" "y" 0).details.symbolic_match = some true ∨
        (algebra_equiv OC "x" "y" 0).details.numerical_match = some true))) := by
  constructor
  · have h := ((equivalent_eq_symbolic_or_numeric OC).1 "x" "x" "1" 0 rfl).2 rfl
    exact ⟨rfl, h.1, h.2⟩
  · have herr : (algebra_equiv OC "x" "y" 0).details.error = none := by
      rw [algebra_xy]
    exact ⟨herr,
      ((equivalent_eq_symbolic_or_numeric OC).2.2 "x" "y" 0 herr).1⟩

/-- Claim C3: in the numeric fallback of the derivative, integral and
algebra engines, when the symbolic test is inconclusive the verdict is
`true` iff every successfully evaluated test point agrees within
tolerance (`pointOk`); points whose evaluation fails are silently skipped,
and when the first evaluation fails at every sampled point the engine
returns a vacuous `true` with no minimum successful-point count. -/
theorem numeric_fallback_vacuous_true (O : CAS) :
    (∀ expr var expected tol pe px vs d cs es pts,
      _safe_parse O expr = .ok pe →
      _safe_parse O expected = .ok px →
      O.mkSym var = .ok vs →
      O.diffE pe vs = .ok d →
      O.simplifyE d = .ok cs →
      O.simplifyE px = .ok es →
      O.isZeroSimplify cs es = .ok false →
      O.genPoints pe vs 10 = .ok pts →
      (∀ b, numericLoop (fun p => O.evalAt cs [(vs, p)])
          (fun p => O.evalAt es [(vs, p)]) tol pts = .ok b →
        (derivative_equivalent O expr var expected tol).details.symbolic_match = some false ∧
        (derivative_equivalent O expr var expected tol).equivalent = b ∧
        (b = true ↔ pts.all (pointOk (fun p => O.evalAt cs [(vs, p)])
          (fun p => O.evalAt es [(vs, p)]) tol) = true)) ∧
      ((∀ p ∈ pts, O.evalAt cs [(vs, p)] = .softErr) →
        (derivative_equivalent O expr var expected tol).equivalent = true)) ∧
    (∀ expr var expected cf tol pe px vs ci cs es pts,
      _safe_parse O expr = .ok pe →
      _safe_parse O expected = .ok px →
      O.mkSym var = .ok vs →
      O.integrateE pe vs = .ok ci →
      O.simplifyE (if cf = true then _remove_constants ci vs else ci) = .ok cs →
      O.simplifyE (if cf = true then _remove_constants px vs else px) = .ok es →
      O.isZeroSimplify cs es = .ok false →
      O.genPoints pe vs 10 = .ok pts →
      (∀ b, numericLoop (fun p => O.evalAt cs [(vs, p)])
          (fun p => O.evalAt es [(vs, p)]) tol pts = .ok b →
        (integral_equivalent O expr var expected cf tol).details.symbolic_match = some false ∧
        (integral_equivalent O expr var expected cf tol).equivalent = b ∧
        (b = true ↔ pts.all (pointOk (fun p => O.evalAt cs [(vs, p)])
          (fun p => O.evalAt es [(vs, p)]) tol) = true)) ∧
      ((∀ p ∈ pts, O.evalAt cs [(vs, p)] = .softErr) →
        (integral_equivalent O expr var expected cf tol).equivalent = true)) ∧
    (∀ lhs rhs tol pl pr ls rs syms,
      _safe_parse O lhs = .ok pl →
      _safe_parse O rhs = .ok pr →
      O.simplifyE pl = .ok ls →
      O.simplifyE pr = .ok rs →
      O.isZeroSimplify ls rs = .ok false →
      O.orAtoms pl pr = .ok syms →
      syms.isEmpty = false →
      (∀ b, numericLoop (fun point_dict => O.evalAt ls point_dict)
          (fun point_dict => O.evalAt rs point_dict) tol
          (O.genPointsMulti syms 10) = .ok b →
        (algebra_equiv O lhs rhs tol).details.symbolic_match = some false ∧
        (algebra_equiv O lhs rhs tol).equivalent = b ∧
        (b = true ↔ (O.genPointsMulti syms 10).all
          (pointOk (fun point_dict => O.evalAt ls point_dict)
            (fun point_dict => O.evalAt rs point_dict) tol) = true)) ∧
      ((∀ a ∈ O.genPointsMulti syms 10, O.evalAt ls a = .softErr) →
        (algebra_equiv O lhs rhs tol).equivalent = true)) := by
  refine ⟨?_, ?_, ?_⟩
  · intro expr var expected tol pe px vs d cs es pts hp hx hv hd hcs hes hz hpts
    constructor
    · intro b hloop
      have hall := numericLoop_ok _ _ _ _ _ hloop
      simp only [derivative_equivalent, derivative_body,
        hp, hx, hv, hd, hcs, hes, hz, hpts, hloop]
      exact ⟨by trivial, by trivial, by rw [hall]⟩
    · intro hsoft
      have hloop := numericLoop_all_soft (fun p => O.evalAt cs [(vs, p)])
        (fun p => O.evalAt es [(vs, p)]) tol pts hsoft
      simp only [derivative_equivalent, derivative_body,
        hp, hx, hv, hd, hcs, hes, hz, hpts, hloop]
      rfl
  · intro expr var expected cf tol pe px vs ci cs es pts hp hx hv hi hcs hes hz hpts
    constructor
    · intro b hloop
      have hall := numericLoop_ok _ _ _ _ _ hloop
      simp only [integral_equivalent, integral_body,
        hp, hx, hv, hi, hcs, hes, hz, hpts, hloop]
      exact ⟨by trivial, by trivial, by rw [hall]⟩
    · intro hsoft
      have hloop := numericLoop_all_soft (fun p => O.evalAt cs [(vs, p)])
        (fun p => O.evalAt es [(vs, p)]) tol pts hsoft
      simp only [integral_equivalent, integral_body,
        hp, hx, hv, hi, hcs, hes, hz, hpts, hloop]
      rfl
  · intro lhs rhs tol pl pr ls rs syms hp1 hp2 hs1 hs2 hz ha hne
    constructor
    · intro b hloop
      have hall := numericLoop_ok _ _ _ _ _ hloop
      simp only [algebra_equiv, algebra_body,
        hp1, hp2, hs1, hs2, hz, ha, hne, hloop]
      exact ⟨by trivial, by trivial, by rw [hall]⟩
    · intro hsoft
      have hloop := numericLoop_all_soft
        (fun point_dict => O.evalAt ls point_dict)
        (fun point_dict => O.evalAt rs point_dict) tol
        (O.genPointsMulti syms 10) hsoft
      simp only [algebra_equiv, algebra_body,
        hp1, hp2, hs1, hs2, hz, ha, hne, hloop]
      rfl

/-- Witness for C3 at the concrete oracle: differentiating and integrating
`sqrt(-1 - x^2)` (complex at every real point, so every evaluation raises
and is skipped) yields a vacuous `equivalent=true` from the fallback with
zero successfully evaluated points; `algebra_equiv("x", "y")` reaches the
same fallback and is refuted at the first evaluated point. -/
theorem numeric_fallback_vacuous_true_witness :
    (derivative_equivalent OC "sqrt(-1 - x^2)" "x" "x" 0).equivalent = true ∧
    (integral_equivalent OC "sqrt(-1 - x^2)" "x" "x" true 0).equivalent = true ∧
    (algebra_equiv OC "x" "y" 0).equivalent = false ∧
    (algebra_equiv OC "x" "y" 0).details.symbolic_match = some false := by
  refine ⟨?_, ?_, ?_, ?_⟩
  · exact ((numeric_fallback_vacuous_true OC).1 "sqrt(-1 - x^2)" "x" "x" 0
      sqrtNegExpr (.sym "x") "x" sqrtNegDeriv sqrtNegDeriv (.sym "x")
      ((List.range 10).map (fun i => (i : ℚ)))
      rfl rfl rfl rfl rfl rfl rfl rfl).2 (fun p _ => rfl)
  · exact ((numeric_fallback_vacuous_true OC).2.1 "sqrt(-1 - x^2)" "x" "x"
      true 0 sqrtNegExpr (.sym "x") "x" sqrtNegIntegral sqrtNegIntegral
      (.sym "x") ((List.range 10).map (fun i => (i : ℚ)))
      rfl rfl rfl rfl rfl rfl rfl rfl).2 (fun p _ => rfl)
  · exact (((numeric_fallback_vacuous_true OC).2.2 "x" "y" 0 (.sym "x")
      (.sym "y") (.sym "x") (.sym "y") ["x", "y"]
      rfl rfl rfl rfl rfl rfl rfl).1 false OC_xy_loop).2.1
  · exact (((numeric_fallback_vacuous_true OC).2.2 "x" "y" 0 (.sym "x")
      (.sym "y") (.sym "x") (.sym "y") ["x", "y"]
      rfl rfl rfl rfl rfl rfl rfl).1 false OC_xy_loop).1
